import Mathlib

/-!
# Verification of the MPC astrometric-record codec (`getImages/ossos_scripts/mpc.py`)

This file gives a shallow embedding, over `List Char` strings and exact
rational arithmetic, of the parts of `mpc.py` that the specification's
testable properties talk about:

* the `TNOdbFlags` flag-string object,
* the `Discovery` / `NullObservation` flag objects,
* the comment-variant parsers (`OSSOSComment`, `CFEPSComment`,
  `TNOdbComment`, `RealOSSOSComment`) and the `MPCComment` dispatcher,
* `Observation.from_string` / `Observation.__str__` / `to_string`,
* the `MPCWriter` buffering / deduplication / discovery bookkeeping,
* the `Index` name-alias table.

Python exceptions are modelled by an `Except PyErr` result type that
distinguishes `ValueError` (the only class the comment dispatcher
catches) from the other exception classes that occur (`IndexError`,
`TypeError`, `struct.error`, `MPCFieldFormatError`).

The two numeric conversion capabilities that the code takes from
`astropy` (calendar⇄Julian-day via `sofa_time.dtf_jd`/`jd_dtf`, and
degrees⇄sexagesimal angle formatting) are out of scope of the repository
per the design document ("coordinate/time conversion primitives …
capability interfaces it calls but does not implement"); they are
modelled exactly, over `ℚ`, at the granularity the repository observes:
a time value records the calendar date and the (rational) seconds of
day, an angle records its exact rational value in hours/degrees.
-/

namespace MPC

/-- Python strings are modelled as lists of characters. -/
abbrev Str := List Char

/-- The Python exception classes that the modelled code can raise.
`valueError` is the only one the `MPCComment.from_string` dispatcher
catches; `structError` is `struct.error`; `mpcFieldFormat` is the
repository's `MPCFieldFormatError` (a subclass of `MPCFormatError`,
*not* of `ValueError`). -/
inductive PyErr where
  | valueError
  | indexError
  | typeError
  | structError
  | mpcFieldFormat
  deriving DecidableEq, Repr

instance {e a : Type} [DecidableEq e] [DecidableEq a] : DecidableEq (Except e a) :=
  fun x y =>
  match x, y with
  | .ok v, .ok w =>
    if h : v = w then isTrue (by rw [h]) else isFalse (fun hc => h (Except.ok.inj hc))
  | .error v, .error w =>
    if h : v = w then isTrue (by rw [h]) else isFalse (fun hc => h (Except.error.inj hc))
  | .ok _, .error _ => isFalse (fun hc => Except.noConfusion hc)
  | .error _, .ok _ => isFalse (fun hc => Except.noConfusion hc)

/-! ## Character and string helpers (Python semantics) -/

/-- The characters Python `str.strip()` removes by default. -/
def pyWhitespace : List Char := [' ', '\t', '\n', '\r', '\x0b', '\x0c']

def isPyWs (c : Char) : Bool := pyWhitespace.contains c

/-- Python `s.lstrip(chars)`. -/
def lstripOn (chars : List Char) (s : Str) : Str := s.dropWhile (fun c => chars.contains c)

/-- Python `s.rstrip(chars)`. -/
def rstripOn (chars : List Char) (s : Str) : Str :=
  (lstripOn chars s.reverse).reverse

/-- Python `s.strip(chars)`. -/
def stripOn (chars : List Char) (s : Str) : Str := rstripOn chars (lstripOn chars s)

/-- Python `s.strip()` (default whitespace strip). -/
def pyStrip (s : Str) : Str := stripOn pyWhitespace s

/-- Python `s.strip(' ')`. -/
def stripSpaces (s : Str) : Str := stripOn [' '] s

/-- Python `s.split(sep)` for a single-character separator: keeps empty
fields, always returns at least one element. -/
def splitSep (sep : Char) (s : Str) : List Str :=
  match s with
  | [] => [[]]
  | c :: rest =>
    let r := splitSep sep rest
    if c = sep then [] :: r
    else
      match r with
      | [] => [[c]]
      | h :: t => (c :: h) :: t

/-- Python `s.split()` (split on whitespace runs, dropping empty fields). -/
def splitWs (s : Str) : List Str :=
  match s with
  | [] => []
  | c :: rest =>
    let r := splitWs rest
    if isPyWs c then r
    else
      match rest with
      | [] => [[c]]
      | c2 :: _ =>
        if isPyWs c2 then [c] :: r
        else
          match r with
          | [] => [[c]]
          | h :: t => (c :: h) :: t

/-- Python `" ".join`-style join with a separator string. -/
def joinSep (sep : Str) : List Str → Str
  | [] => []
  | [s] => s
  | s :: rest => s ++ sep ++ joinSep sep rest

/-- Left-pad with a fill character to a minimum width. -/
def padLeft (fill : Char) (w : ℕ) (s : Str) : Str :=
  List.replicate (w - s.length) fill ++ s

/-- Right-pad with a fill character to a minimum width. -/
def padRight (fill : Char) (w : ℕ) (s : Str) : Str :=
  s ++ List.replicate (w - s.length) fill

/-- Python `s.rfind('.')`: index of the last occurrence, or `none`. -/
def rfindDot (s : Str) : Option ℕ :=
  match s.reverse.findIdx? (fun c => c = '.') with
  | none => none
  | some i => some (s.length - 1 - i)

def isDigitCh (c : Char) : Bool := 48 ≤ c.toNat && c.toNat ≤ 57

def digitChar (n : ℕ) : Char := Char.ofNat (48 + n)

def charDigit (c : Char) : ℕ := c.toNat - 48

/-- Value of a digit string (most significant first). -/
def digitsVal (s : Str) : ℕ := s.foldl (fun a c => 10 * a + charDigit c) 0

/-- Decimal digits of `n`, zero-padded on the left to exactly `w`
characters (the low `w` digits of `n`). -/
def natDigitsPadded : ℕ → ℕ → Str
  | 0, _ => []
  | w + 1, n => natDigitsPadded w (n / 10) ++ [digitChar (n % 10)]

/-- Fuel-driven helper for `numDigits` (structural recursion so that the
kernel can evaluate it inside `decide`). -/
def numDigitsAux : ℕ → ℕ → ℕ
  | 0, _ => 1
  | fuel + 1, n => if n < 10 then 1 else numDigitsAux fuel (n / 10) + 1

/-- Number of decimal digits of `n` (1 for `n = 0`). -/
def numDigits (n : ℕ) : ℕ := numDigitsAux n n

/-- Unpadded decimal digits of `n`. -/
def natDigits (n : ℕ) : Str := natDigitsPadded (numDigits n) n

/-- Decimal digits of an integer, with a sign for negatives. -/
def intDigits (z : ℤ) : Str :=
  if z < 0 then '-' :: natDigits z.natAbs else natDigits z.natAbs

/-- Python `s.isdigit()`: nonempty and all characters are digits. -/
def pyIsDigit (s : Str) : Bool := !s.isEmpty && s.all isDigitCh

/-- `some (digitsVal s)` when `s` is a nonempty digit string. -/
def parseNat? (s : Str) : Option ℕ :=
  if pyIsDigit s then some (digitsVal s) else none

/-- Python `int(str)`: optional surrounding whitespace and sign, then digits. -/
def parseInt? (s : Str) : Option ℤ :=
  let t := pyStrip s
  match t with
  | '-' :: rest => (parseNat? rest).map (fun n => -(n : ℤ))
  | '+' :: rest => (parseNat? rest).map (fun n => (n : ℤ))
  | _ => (parseNat? t).map (fun n => (n : ℤ))

/-- Unsigned decimal literal: `digits`, `digits.digits?`, or `.digits`.
Gives the exact rational value. -/
def parseUnsignedDec? (s : Str) : Option ℚ :=
  match splitSep '.' s with
  | [ip] => (parseNat? ip).map (fun n => (n : ℚ))
  | [ip, fp] =>
    if ip.isEmpty && fp.isEmpty then none
    else if (ip.isEmpty || pyIsDigit ip) && (fp.isEmpty || pyIsDigit fp) then
      some ((digitsVal ip : ℚ) + (digitsVal fp : ℚ) / (10 : ℚ) ^ fp.length)
    else none
  | _ => none

/-- Python `float(str)` on plain decimal literals (scientific notation,
`inf` and `nan` are not used by any input this file reasons about and
are rejected). Strips surrounding whitespace; accepts an optional sign. -/
def parseFloat? (s : Str) : Option ℚ :=
  let t := pyStrip s
  match t with
  | '-' :: rest => (parseUnsignedDec? rest).map (fun q => -q)
  | '+' :: rest => parseUnsignedDec? rest
  | _ => parseUnsignedDec? t

/-- Round to the nearest integer, ties to even (the rounding used by
Python's fixed-point float formatting on exactly representable values). -/
def pyRound (q : ℚ) : ℤ :=
  let f := ⌊q⌋
  let r := q - f
  if r < 1 / 2 then f
  else if 1 / 2 < r then f + 1
  else if f % 2 = 0 then f else f + 1

/-- `%0wd`-style zero fill: zero-pad on the left to a minimum width. -/
def zeroPadMin (w : ℕ) (n : ℕ) : Str := padLeft '0' w (natDigits n)

/-- Python `'{:.pf}'.format` of a rational (fixed-point, `p` decimals,
sign for negatives). -/
def formatF (p : ℕ) (q : ℚ) : Str :=
  let core : ℚ → Str := fun a =>
    let t := (pyRound (a * (10 : ℚ) ^ p)).toNat
    if p = 0 then natDigits t
    else natDigits (t / 10 ^ p) ++ '.' :: natDigitsPadded p (t % 10 ^ p)
  if q < 0 then '-' :: core (-q) else core q

/-- `compute_precision`: digits after the last `'.'` of the
space-stripped string, `0` when there is no dot. -/
def compute_precision (s : Str) : ℕ :=
  let t := stripSpaces s
  match rfindDot t with
  | none => 0
  | some idx => t.length - idx - 1

/-- Fixed-width unpacking: cut `s` into pieces of the given widths;
fails (like `struct.error`) unless the total length matches exactly. -/
def unpackWidths : List ℕ → Str → Option (List Str)
  | [], s => if s.isEmpty then some [] else none
  | w :: ws, s =>
    if s.length < w then none
    else (unpackWidths ws (s.drop w)).map (fun r => s.take w :: r)

end MPC

namespace MPC

/-! ## TNOdbFlags (`mpc.py` lines 129–162) -/

structure TNOdbFlags where
  flags : Str
  deriving DecidableEq, Repr

/-- `TNOdbFlags.__init__`: `re.match("[10]{12}", flags)` must succeed;
`re.match` only anchors at the start, so the first 12 characters must be
binary digits (longer strings are accepted).  Failure raises
`ValueError`. -/
def TNOdbFlags.mk? (flags : Str) : Except PyErr TNOdbFlags :=
  if 12 ≤ flags.length ∧ (flags.take 12).all (fun c => c = '0' ∨ c = '1') then
    .ok ⟨flags⟩
  else .error .valueError

/-- The two Python value shapes that the modelled comparisons mix. -/
inductive PyVal where
  | int (z : ℤ)
  | str (s : Str)
  deriving DecidableEq, Repr

/-- Python 2 `==` between the value shapes used in `mpc.py`: values of
different types (a one-character string and an `int`) are never equal. -/
def pyEq : PyVal → PyVal → Bool
  | .int a, .int b => a == b
  | .str a, .str b => a == b
  | _, _ => false

/-- `TNOdbFlags.is_discovery` getter: returns `self.__flags[0] == 1`,
comparing the one-character *string* `flags[0]` against the *integer*
`1`. -/
def TNOdbFlags.is_discovery (f : TNOdbFlags) : Bool :=
  pyEq (.str (f.flags.take 1)) (.int 1)

/-- `TNOdbFlags.is_discovery` setter: its body,
`self.__flags[0] == bool(is_discovery) and "1" or "0"`, is a comparison
expression whose value is discarded — there is no assignment, so the
stored flag string is returned unchanged. -/
def TNOdbFlags.set_is_discovery (f : TNOdbFlags) (_is_discovery : Bool) : TNOdbFlags := f

/-! ## Discovery (`mpc.py` lines 283–340) -/

structure Discovery where
  is_disc : Bool
  is_initial : Bool
  deriving DecidableEq, Repr

/-- The argument values accepted by the `Discovery.is_discovery` setter:
a string, a bool, or `None`. -/
inductive DiscoveryArg where
  | str (s : Str)
  | bool (b : Bool)
  | none
  deriving DecidableEq, Repr

/-- Membership in `['*', '&', ' ', '', True, False, None]`. -/
def discoveryAllowed : DiscoveryArg → Bool
  | .str s => s = ['*'] ∨ s = ['&'] ∨ s = [' '] ∨ s = []
  | .bool _ => true
  | .none => true

/-- Truthiness of `is_discovery in ['*', '&', True]`. -/
def discoveryTruth : DiscoveryArg → Bool
  | .str s => s = ['*'] ∨ s = ['&']
  | .bool b => b
  | .none => false

/-- Truthiness of `is_discovery in ["*", True]`. -/
def discoveryInitialTruth : DiscoveryArg → Bool
  | .str s => s = ['*']
  | .bool b => b
  | .none => false

/-- `Discovery.is_discovery` setter: validates against the allowed list
(raising `MPCFieldFormatError` otherwise) and stores the truthiness. -/
def Discovery.set_is_discovery (d : Discovery) (a : DiscoveryArg) : Except PyErr Discovery :=
  if discoveryAllowed a then .ok { d with is_disc := discoveryTruth a }
  else .error .mpcFieldFormat

/-- `Discovery.is_initial_discovery` setter (no validation). -/
def Discovery.set_is_initial_discovery (d : Discovery) (a : DiscoveryArg) : Discovery :=
  { d with is_initial := discoveryInitialTruth a }

/-- `Discovery.__init__`: both setters applied to the same argument. -/
def Discovery.mk? (a : DiscoveryArg) : Except PyErr Discovery := do
  let d ← Discovery.set_is_discovery ⟨false, false⟩ a
  return Discovery.set_is_initial_discovery d a

/-- `Discovery.__str__`: `*` for the initial discovery, `&` for other
discovery lines, a blank otherwise. -/
def Discovery.render (d : Discovery) : Str :=
  if d.is_initial then ['*'] else if d.is_disc then ['&'] else [' ']

/-! ## NullObservation (`mpc.py` lines 96–122) -/

def nullObservationChars : List Char := ['!', '-', '#']

structure NullObservation where
  null_observation_character : Char
  isNull : Bool
  deriving DecidableEq, Repr

/-- `NullObservation.__init__` on a string argument: true iff the first
character is a magic character.  (The source indexes `[0]`; the
argument is always the one-column unpack here, hence nonempty.) -/
def NullObservation.ofStr (s : Str) : NullObservation :=
  ⟨'!', match s.head? with
        | some c => nullObservationChars.contains c
        | Option.none => false⟩

/-- `NullObservation.__init__` on a bool argument. -/
def NullObservation.ofBool (b : Bool) : NullObservation := ⟨'!', b⟩

/-- `NullObservation.__str__`. -/
def NullObservation.render (n : NullObservation) : Str :=
  if n.isNull then [n.null_observation_character] else [' ']

/-! ## MPCNote (`mpc.py` lines 208–280) -/

inductive NoteType where
  | note1
  | note2
  deriving DecidableEq, Repr

/-- The keys of `MPCNOTES["Note1"]`. -/
def note1Keys : List Str :=
  [[' '], [], ['*'], ['A'], ['a'], ['B'], ['b'], ['c'], ['D'], ['d'], ['E'], ['F'],
   ['f'], ['G'], ['g'], ['H'], ['I'], ['i'], ['J'], ['K'], ['k'], ['M'], ['m'],
   ['N'], ['O'], ['o'], ['P'], ['p'], ['R'], ['r'], ['S'], ['s'], ['T'], ['t'],
   ['U'], ['u'], ['V'], ['W'], ['w']]

/-- The keys of `MPCNOTES["Note2"]`. -/
def note2Keys : List Str :=
  [[' '], [], ['P'], ['e'], ['C'], ['T'], ['M'], ['V'], ['R'], ['S'], ['c'],
   ['E'], ['O'], ['H'], ['N'], ['n']]

def noteKeys : NoteType → List Str
  | .note1 => note1Keys
  | .note2 => note2Keys

structure MPCNote where
  note_type : NoteType
  code : Str
  deriving DecidableEq, Repr

/-- `MPCNote.code` setter (via `__init__`): strip the code; digit codes
are only allowed for Note1 and must be 1–9; otherwise the code must be
at most one character and in the vocabulary.  Violations raise
`MPCFieldFormatError`. -/
def MPCNote.mk? (code : Str) (note_type : NoteType) : Except PyErr MPCNote :=
  let c := pyStrip code
  if pyIsDigit c then
    if note_type ≠ NoteType.note1 then .error .mpcFieldFormat
    else if 0 < digitsVal c ∧ digitsVal c < 10 then .ok ⟨note_type, c⟩
    else .error .mpcFieldFormat
  else
    if 1 < c.length then .error .mpcFieldFormat
    else if (noteKeys note_type).contains c then .ok ⟨note_type, c⟩
    else .error .mpcFieldFormat

/-- `MPCNote.__str__` as used inside `'{0:1s}'`-style slots (the empty
code renders as a single space through the width-1 format). -/
def MPCNote.render (n : MPCNote) : Str := padRight ' ' 1 n.code

/-! ## Association-list maps (Python `dict` with insertion semantics) -/

def alLookup {κ α : Type} [DecidableEq κ] : List (κ × α) → κ → Option α
  | [], _ => Option.none
  | (k, v) :: t, key => if k = key then some v else alLookup t key

def alInsert {κ α : Type} [DecidableEq κ] : List (κ × α) → κ → α → List (κ × α)
  | [], key, v => [(key, v)]
  | (k, w) :: t, key, v => if k = key then (key, v) :: t else (k, w) :: alInsert t key v

/-! ## Index (`mpc.py` lines 1301–1348) -/

structure Index where
  names : List (Str × Str)
  index : List (Str × List Str)
  deriving DecidableEq, Repr

/-- Successive `MAX_NAME_LENGTH = 10` slices of a string, fuel-driven
(mirrors `range(10, len(line), 10)` slicing, last slice may be short). -/
def chunksAux : ℕ → Str → List Str
  | 0, _ => []
  | _, [] => []
  | fuel + 1, s => s.take 10 :: chunksAux fuel (s.drop 10)

def chunks10 (s : Str) : List Str := chunksAux s.length s

/-- Inner loop body of `Index.__init__`: strip one 10-column slice to an
alias name, append it to the master's group, and point the alias at the
master. -/
def Index.addAlias (master : Str) (st : Index) (chunk : Str) : Index :=
  let this_name := pyStrip chunk
  let g := (alLookup st.index master).getD []
  ⟨alInsert st.names this_name master, alInsert st.index master (g ++ [this_name])⟩

/-- Processing of one line of the index file (`Index.__init__` loop
body): the first 10 columns give the master name, each further 10-column
slice an alias. -/
def Index.addLine (idx : Index) (line : Str) : Index :=
  let master := pyStrip (line.take 10)
  let start : Index :=
    ⟨alInsert idx.names master master, alInsert idx.index master [master]⟩
  (chunks10 (line.drop 10)).foldl (Index.addAlias master) start

/-- `Index.__init__` over the lines of the index file. -/
def Index.build (lines : List Str) : Index :=
  lines.foldl Index.addLine ⟨[], []⟩

/-- The result union of `Index.get_aliases`: either the bare *string*
(unknown name) or a list of names. -/
inductive AliasRes where
  | str (s : Str)
  | list (l : List Str)
  deriving DecidableEq, Repr

/-- `Index.get_aliases`: the bare name when unknown, otherwise
`self.index[self.names[name]]`.  (For indexes produced by `Index.build`
the inner key is always present — proved below — so the `getD []`
default never fires; the source would raise `KeyError`.) -/
def Index.get_aliases (idx : Index) (name : Str) : AliasRes :=
  match alLookup idx.names name with
  | Option.none => .str name
  | some master => .list ((alLookup idx.index master).getD [])

/-- Python substring containment `x in s`. -/
def strSub : Str → Str → Bool
  | x, [] => x.isEmpty
  | x, c :: t => x.isPrefixOf (c :: t) || strSub x t

/-- Python `in` applied to the union returned by `get_aliases`:
substring containment on a string, membership on a list. -/
def pyInAlias (x : Str) : AliasRes → Bool
  | .str s => strSub x s
  | .list l => l.contains x

/-- `Index.is_same`: `name2 in self.get_aliases(name1)`. -/
def Index.is_same (idx : Index) (name1 name2 : Str) : Bool :=
  pyInAlias name2 (idx.get_aliases name1)

/-- Well-formedness of an `Index`: every known name's canonical master
has an alias group, and that group lists the master first.  (The group
need not still contain the name itself: a later index line with the same
master resets the group.) -/
def IndexWF (idx : Index) : Prop :=
  ∀ name master, alLookup idx.names name = some master →
    ∃ g, alLookup idx.index master = some g ∧ g.head? = some master

/-! ## MPCWriter (`mpc.py` lines 1100–1194)

The writer only inspects, of each buffered record: the truthiness of
`null_observation`, the `Discovery` object, `date.mjd` / `date.jd`, and
the formatted line.  A buffered record is therefore modelled by those
observables (`body` standing for everything the formatter prints other
than the discovery flag; `jd` for the date, with
`mjd = jd - 2400000.5`). -/

structure WObs where
  jd : ℚ
  isNull : Bool
  disc : Discovery
  body : Str
  deriving DecidableEq, Repr

def mjdOf (jd : ℚ) : ℚ := jd - 4800001 / 2

/-- One line of writer output, recording the emitted record's key, its
null flag, whether it was discovery-marked when emitted, and the
discovery marker it rendered. -/
structure EmitLine where
  jd : ℚ
  isNull : Bool
  discMarked : Bool
  marker : Str
  body : Str
  deriving DecidableEq, Repr

structure WriterState where
  auto_flush : Bool
  auto_discovery : Bool
  buffer : List (ℚ × WObs)
  written : List ℚ
  discovery_written : Bool
  output : List EmitLine
  deriving DecidableEq, Repr

/-- `MPCWriter.__init__`. -/
def MPCWriter.init (auto_flush auto_discovery : Bool) : WriterState :=
  ⟨auto_flush, auto_discovery, [], [], false, []⟩

/-- `_flush_observation`, first statement: when `auto_discovery` is on,
the record is not null and no discovery line has been written, set
`obs.discovery = True` (a fresh `Discovery(True)`, initial and marked). -/
def autoMark (s : WriterState) (o : WObs) : WObs :=
  if s.auto_discovery ∧ ¬o.isNull ∧ ¬s.discovery_written
  then { o with disc := ⟨true, true⟩ }
  else o

/-- `_flush_observation`, second statement, mutation half: when the
record is discovery-marked and a discovery line was already written,
downgrade `is_initial_discovery` to `False`. -/
def downgrade (s : WriterState) (o1 : WObs) : WObs :=
  if o1.disc.is_disc ∧ s.discovery_written
  then { o1 with disc := { o1.disc with is_initial := false } }
  else o1

/-- The output line an emission produces (key, null flag, whether the
record was discovery-marked, the rendered discovery marker, body). -/
def mkEmit (o : WObs) : EmitLine :=
  ⟨o.jd, o.isNull, o.disc.is_disc, Discovery.render o.disc, o.body⟩

/-- `MPCWriter._flush_observation`: auto-mark the first non-null record
as a discovery, downgrade `is_initial_discovery` once a discovery line
has been written (recording the flag otherwise), then emit unless the
record's Julian Day was already written.  The mutated record object is
also the buffered one, so the buffer entry is updated in place. -/
def flushObservation (s : WriterState) (o : WObs) : WriterState :=
  let o1 := autoMark s o
  let o2 := downgrade s o1
  let dw := if o1.disc.is_disc then true else s.discovery_written
  let s1 := { s with discovery_written := dw,
                     buffer := alInsert s.buffer (mjdOf o2.jd) o2 }
  if o2.jd ∈ s1.written then s1
  else { s1 with written := s1.written ++ [o2.jd],
                 output := s1.output ++ [mkEmit o2] }

def insertSorted (p : ℚ × WObs) : List (ℚ × WObs) → List (ℚ × WObs)
  | [] => [p]
  | q :: t => if p.1 ≤ q.1 then p :: q :: t else q :: insertSorted p t

/-- `MPCWriter.get_chronological_buffered_observations`: the buffer
sorted by ascending time key. -/
def sortByKey : List (ℚ × WObs) → List (ℚ × WObs)
  | [] => []
  | p :: t => insertSorted p (sortByKey t)

/-- `MPCWriter.flush`: iterate a snapshot of the chronologically sorted
buffer through `_flush_observation`. -/
def MPCWriter.flush (s : WriterState) : WriterState :=
  (sortByKey s.buffer).foldl (fun st p => flushObservation st p.2) s

/-- `MPCWriter.write`: insert into the buffer keyed by `date.mjd`
(last write wins), then flush when `auto_flush` is set. -/
def MPCWriter.write (s : WriterState) (o : WObs) : WriterState :=
  let s1 := { s with buffer := alInsert s.buffer (mjdOf o.jd) o }
  if s1.auto_flush then MPCWriter.flush s1 else s1

inductive WCmd where
  | write (o : WObs)
  | flush
  deriving DecidableEq, Repr

/-- Run a sequence of public writer operations. -/
def runWriter (s : WriterState) : List WCmd → WriterState
  | [] => s
  | WCmd.write o :: rest => runWriter (MPCWriter.write s o) rest
  | WCmd.flush :: rest => runWriter (MPCWriter.flush s) rest

/-- Number of output lines rendering the initial-discovery marker. -/
def countStar (out : List EmitLine) : ℕ :=
  (out.filter (fun e => e.marker = ['*'])).length

/-- The property claimed by the spec's discovery invariant: any line
rendering `*` is the earliest line of the output that is not a null
observation. -/
def starLineIsEarliestNonNull (out : List EmitLine) : Prop :=
  ∀ e ∈ out, e.marker = ['*'] →
    e.isNull = false ∧ out.find? (fun x => !x.isNull) = some e

instance (out : List EmitLine) : Decidable (starLineIsEarliestNonNull out) := by
  unfold starLineIsEarliestNonNull
  infer_instance

end MPC

namespace MPC

/-! ## OSSOSComment and its variants (`mpc.py` lines 847–1097, 1391–1527) -/

structure OSSOSComment where
  version : Str
  frame : Option Str
  source_name : Option Str
  photometry_note : Str
  mpc_note : Str
  x : Option ℚ
  y : Option ℚ
  plate_uncertainty : ℚ
  astrometric_level : ℤ
  mag : Option ℚ
  mag_uncertainty : Option ℚ
  comment : Str
  deriving DecidableEq, Repr

/-- The Python argument shapes reaching the comment setters: `None`, a
string, or a number. -/
inductive PyArg where
  | none
  | str (s : Str)
  | num (q : ℚ)
  deriving DecidableEq, Repr

/-- Python `float()` on those shapes; `none` models the raised
`TypeError`/`ValueError` (every call site here catches all exceptions). -/
def pyFloat? : PyArg → Option ℚ
  | .none => Option.none
  | .str s => parseFloat? s
  | .num q => some q

/-- Python `int()` on those shapes, with the exception class that a
failure raises (`TypeError` for `None`, `ValueError` for a bad string);
`int` truncates a number toward zero. -/
def pyInt : PyArg → Except PyErr ℤ
  | .none => .error .typeError
  | .str s =>
    match parseInt? s with
    | some z => .ok z
    | Option.none => .error .valueError
  | .num q => .ok (q.num / (q.den : ℤ))

/-- `str(self.mag).isdigit()` in the `mag_uncertainty` failure branch:
`str(None)` is `"None"` and the `repr` of a Python float always contains
a decimal point (or exponent), so `.isdigit()` is false either way. -/
def magStrIsDigit (_mag : Option ℚ) : Bool := false

/-- `OSSOSComment.mag` setter: store the float and set the photometry
note to `Y`; any failure (unparseable, or outside the open range
15–30) sets the note to `Z` and the stored magnitude to `None`. -/
def OSSOSComment.setMag (c : OSSOSComment) (mag : PyArg) : OSSOSComment :=
  match pyFloat? mag with
  | some v =>
    if 15 < v ∧ v < 30 then { c with mag := some v, photometry_note := ['Y'] }
    else { c with photometry_note := ['Z'], mag := Option.none }
  | Option.none => { c with photometry_note := ['Z'], mag := Option.none }

/-- `OSSOSComment.mag_uncertainty` setter: failures (unparseable or
outside the open interval (0,1)) clear the uncertainty and set the
photometry note (`L` / `Z`). -/
def OSSOSComment.setMagUncertainty (c : OSSOSComment) (mu : PyArg) : OSSOSComment :=
  let fail : OSSOSComment :=
    { c with photometry_note := if magStrIsDigit c.mag then ['L'] else ['Z'],
             mag_uncertainty := Option.none }
  match pyFloat? mu with
  | some v => if 0 < v ∧ v < 1 then { c with mag_uncertainty := some v } else fail
  | Option.none => fail

/-- `OSSOSComment.plate_uncertainty` setter: default `0.2` when
unparseable; out-of-range values raise `ValueError` (outside any try). -/
def OSSOSComment.setPlateUncertainty (c : OSSOSComment) (pu : PyArg) :
    Except PyErr OSSOSComment :=
  let v := (pyFloat? pu).getD (1 / 5)
  if 0 < v ∧ v < 100 then .ok { c with plate_uncertainty := v }
  else .error .valueError

/-- `OSSOSComment.astrometric_level` setter: `int()` conversion, then a
0–9 range check; both failures propagate. -/
def OSSOSComment.setAstrometricLevel (c : OSSOSComment) (al : PyArg) :
    Except PyErr OSSOSComment := do
  let v ← pyInt al
  if -1 < v ∧ v < 10 then return { c with astrometric_level := v }
  else throw .valueError

/-- `OSSOSComment.x` setter (never raises). -/
def OSSOSComment.setX (c : OSSOSComment) (xa : PyArg) : OSSOSComment :=
  { c with x := pyFloat? xa }

/-- `OSSOSComment.y` setter (never raises). -/
def OSSOSComment.setY (c : OSSOSComment) (ya : PyArg) : OSSOSComment :=
  { c with y := pyFloat? ya }

/-- `OSSOSComment.comment` setter: strip a string; `None` (or a value
without `.strip`) stores the empty string. -/
def OSSOSComment.setComment (c : OSSOSComment) (com : PyArg) : OSSOSComment :=
  match com with
  | .str s => { c with comment := pyStrip s }
  | _ => { c with comment := [] }

/-- The constructor arguments of `OSSOSComment.__init__`, in source
order. -/
structure OSSOSArgs where
  version : Str
  frame : PyArg
  source_name : PyArg
  photometry_note : Str
  mpc_note : Str
  xArg : PyArg
  yArg : PyArg
  plate_uncertainty : PyArg
  astrometric_level : PyArg
  magnitude : PyArg
  mag_uncertainty : PyArg
  commentArg : PyArg

/-- `OSSOSComment.__init__`: runs the setters in source order (the
magnitude setter runs before the uncertainty setter and both overwrite
the photometry note; the plate-uncertainty and astrometric-level
setters can raise). -/
def OSSOSComment.init (a : OSSOSArgs) : Except PyErr OSSOSComment := do
  let c0 : OSSOSComment := {
    version := a.version
    frame := match a.frame with | .str s => some s | _ => Option.none
    source_name := match a.source_name with | .str s => some s | _ => Option.none
    photometry_note := a.photometry_note
    mpc_note := a.mpc_note
    x := Option.none
    y := Option.none
    plate_uncertainty := 1 / 5
    astrometric_level := 0
    mag := Option.none
    mag_uncertainty := Option.none
    comment := [] }
  let c1 := c0.setX a.xArg
  let c2 := c1.setY a.yArg
  let c3 := c2.setMag a.magnitude
  let c4 := c3.setMagUncertainty a.mag_uncertainty
  let c5 ← c4.setPlateUncertainty a.plate_uncertainty
  let c6 ← c5.setAstrometricLevel a.astrometric_level
  return c6.setComment a.commentArg

/-- A `TNOdbComment` is an `OSSOSComment` plus the database index, date
and flag-string fields. -/
structure TNOdbComment where
  base : OSSOSComment
  index : Str
  dateStr : Str
  flagsStr : Str
  deriving DecidableEq, Repr

/-- The union of values the comment parsers return: a plain string
(opaque passthrough / empty input), an `OSSOSComment` (which includes
`CFEPSComment` instances, `version = "L"`), or a `TNOdbComment`. -/
inductive CommentVal where
  | str (s : Str)
  | ossos (c : OSSOSComment)
  | tnodb (c : TNOdbComment)
  deriving DecidableEq, Repr

/-- `struct.unpack('1s1x10s1x11s1x1s1s1x7s1x7s1x4s1x1s1x5s1x4s1x', s)`:
the eleven data fields at their fixed offsets; fails
(`struct.error`) unless the length is exactly 62. -/
def unpackOssos (s : Str) :
    Option (Str × Str × Str × Str × Str × Str × Str × Str × Str × Str × Str) :=
  if s.length = 62 then
    some (s.take 1, (s.drop 2).take 10, (s.drop 13).take 11,
          (s.drop 25).take 1, (s.drop 26).take 1,
          (s.drop 28).take 7, (s.drop 36).take 7,
          (s.drop 44).take 4, (s.drop 49).take 1,
          (s.drop 51).take 5, (s.drop 57).take 4)
  else Option.none

/-- First stage of `OSSOSComment.from_string`: the fixed-width unpack,
the constructor call and the `retval.comment = values[1]` assignment,
all inside `try … except Exception` — any failure (including the
`IndexError` when there is no `%`) falls through to the second stage. -/
def ossosStructStage (values0 : Str) (values1? : Option Str) : Option OSSOSComment :=
  match unpackOssos values0 with
  | Option.none => Option.none
  | some (v, frame, sn, phot, mpc, xs, ys, ps, lv, ms, mus) =>
    match OSSOSComment.init {
      version := v, frame := .str frame, source_name := .str sn,
      photometry_note := phot, mpc_note := mpc,
      xArg := .str xs, yArg := .str ys,
      plate_uncertainty := .str ps, astrometric_level := .str lv,
      magnitude := .str ms, mag_uncertainty := .str mus,
      commentArg := .none } with
    | .error _ => Option.none
    | .ok c =>
      match values1? with
      | Option.none => Option.none
      | some v1 => some (c.setComment (.str v1))

/-- Second stage of `OSSOSComment.from_string`: the space-separated
parse.  `values[0]` on an empty token list raises `IndexError` (re-raised
by the inner `except Exception … raise e`), as does `values[5]` when
only five tokens are present; a non-`O` version token or fewer than five
tokens raises `ValueError`; the trailing length-dependent field
assignments can raise `ValueError` from the `plate_uncertainty` /
`astrometric_level` setters. -/
def ossosSpaceStage (values0 : Str) (comment_string : Str) :
    Except PyErr OSSOSComment := do
  let tokens := splitWs values0
  match tokens with
  | [] => throw .indexError
  | t0 :: _ =>
    if ¬(t0 = ['O'] ∧ 5 ≤ tokens.length) then throw .valueError
    else if tokens.length < 6 then throw .indexError
    else do
      let t3 := tokens.getD 3 []
      let c ← OSSOSComment.init {
        version := ['O'], frame := .str (tokens.getD 1 []),
        source_name := .str (tokens.getD 2 []),
        photometry_note := t3.take 1, mpc_note := t3.drop 1,
        xArg := .str (tokens.getD 4 []), yArg := .str (tokens.getD 5 []),
        plate_uncertainty := .num (1 / 5), astrometric_level := .num 0,
        magnitude := .none, mag_uncertainty := .none,
        commentArg := .str comment_string }
      let c := { c with version := t0 }
      if tokens.length = 7 then
        let c ← c.setPlateUncertainty (.str (tokens.getD 6 []))
        return c
      else if tokens.length = 8 then
        let c ← c.setPlateUncertainty (.str (tokens.getD 6 []))
        let c ← c.setAstrometricLevel (.str (tokens.getD 7 []))
        return c
      else if tokens.length = 9 then
        let c := c.setMag (.str (tokens.getD 6 []))
        let c := c.setMagUncertainty (.str (tokens.getD 7 []))
        let c ← c.setPlateUncertainty (.str (tokens.getD 8 []))
        return c
      else if tokens.length = 10 then
        let c ← c.setPlateUncertainty (.str (tokens.getD 8 []))
        let c ← c.setAstrometricLevel (.str (tokens.getD 9 []))
        let c := c.setMag (.str (tokens.getD 6 []))
        let c := c.setMagUncertainty (.str (tokens.getD 7 []))
        return c
      else return c

/-- `OSSOSComment.from_string`: empty input returns the empty *string*;
otherwise strip a leading `#`, split at `%`, try the fixed-width stage,
then the space-separated stage. -/
def OSSOSComment.from_string (comment : Str) : Except PyErr CommentVal := do
  if comment.length = 0 then return .str []
  else
    let c1 := if comment.head? = some '#' then comment.drop 1 else comment
    let values := splitSep '%' c1
    let values0 := values.headI
    let values1? := values.get? 1
    let comment_string := match values1? with
      | some v => lstripOn [' '] v
      | Option.none => []
    match ossosStructStage values0 values1? with
    | some c => return .ossos c
    | Option.none => do
      let c ← ossosSpaceStage values0 comment_string
      return .ossos c

/-- `CFEPSComment.__init__` (producing an `OSSOSComment` with version
`L`): pixel coordinates are recovered from `"measured inside confirm @"`
comments. -/
def CFEPSComment.init (frame : Str) (commentText : Str) : Except PyErr OSSOSComment := do
  let xy : Except PyErr (PyArg × PyArg) :=
    if strSub ("measured inside confirm @".toList) commentText then
      let parts := splitWs ((splitSep '@' commentText).getD 1 [])
      match parts with
      | [] => .error .indexError
      | [_] => .error .indexError
      | xv :: yv :: _ => .ok (.str xv, .str yv)
    else .ok (.str [], .str [])
  let (xA, yA) ← xy
  let c ← OSSOSComment.init {
    version := ['O'], frame := .str frame, source_name := .none,
    photometry_note := [' '], mpc_note := [' '],
    xArg := xA, yArg := yA,
    plate_uncertainty := .num (1 / 5), astrometric_level := .num 0,
    magnitude := .none, mag_uncertainty := .none,
    commentArg := .str commentText }
  return { c with version := ['L'] }

/-- `CFEPSComment.from_string`: requires a leading `L` token and at
least two tokens (`ValueError` otherwise; `IndexError` on an empty token
list). -/
def CFEPSComment.from_string (comment : Str) : Except PyErr CommentVal := do
  let tokens := splitWs comment
  match tokens with
  | [] => throw .indexError
  | t0 :: _ =>
    if ¬(t0 = ['L'] ∧ 2 ≤ tokens.length) then throw .valueError
    else do
      let frame := tokens.getD 1 []
      let ctext := joinSep [' '] (tokens.drop 2)
      let c ← CFEPSComment.init frame ctext
      return .ossos c

/-- `re.match(r'\d{8}_\S{3}_\S', index)`: eight digits, underscore,
three non-whitespace, underscore, one non-whitespace, anchored at the
start only. -/
def tnodbIndexMatch (s : Str) : Bool :=
  14 ≤ s.length ∧
  (s.take 8).all isDigitCh ∧
  s.getD 8 ' ' = '_' ∧
  ((s.drop 9).take 3).all (fun c => ¬isPyWs c) ∧
  s.getD 12 ' ' = '_' ∧
  ¬isPyWs (s.getD 13 ' ')

/-- `TNOdbComment.from_string`: length and index-pattern checks
(`ValueError` on failure), fixed slices for date and flags, then an
inner variant loop over `[OSSOSComment.from_string,
CFEPSComment.from_string]` that catches *only* `ValueError`; the parsed
(or opaque, version `T`) comment is rebuilt as a `TNOdbComment`. -/
def TNOdbComment.from_string (line : Str) : Except PyErr CommentVal := do
  if line.length < 56 then throw .valueError
  else
    let index := pyStrip (line.take 14)
    if ¬tnodbIndexMatch index then throw .valueError
    else do
      let dateStr := pyStrip ((line.drop 15).take 8)
      let flagsStr := pyStrip ((line.drop 24).take 10)
      let ctext := pyStrip (line.drop 56)
      let inner : Except PyErr (Option CommentVal) :=
        if ctext.length = 0 then .ok Option.none
        else
          match OSSOSComment.from_string ctext with
          | .ok v => .ok (some v)
          | .error .valueError =>
            match CFEPSComment.from_string ctext with
            | .ok v => .ok (some v)
            | .error .valueError => .ok Option.none
            | .error e => .error e
          | .error e => .error e
      let comment_object ← inner
      match comment_object with
      | some (.ossos c) =>
        let base ← OSSOSComment.init {
          version := c.version,
          frame := (match c.frame with | some f => .str f | Option.none => PyArg.none),
          source_name :=
            (match c.source_name with | some s => .str s | Option.none => PyArg.none),
          photometry_note := c.photometry_note,
          mpc_note := c.mpc_note,
          xArg := (match c.x with | some q => .num q | Option.none => PyArg.none),
          yArg := (match c.y with | some q => .num q | Option.none => PyArg.none),
          plate_uncertainty := .num c.plate_uncertainty,
          astrometric_level := .num (c.astrometric_level : ℚ),
          magnitude := (match c.mag with | some q => .num q | Option.none => PyArg.none),
          mag_uncertainty :=
            (match c.mag_uncertainty with | some q => .num q | Option.none => PyArg.none),
          commentArg := .str c.comment }
        return .tnodb ⟨base, index, dateStr, flagsStr⟩
      | _ =>
        let base ← OSSOSComment.init {
          version := ['T'], frame := .str [' '], source_name := .str [],
          photometry_note := [' '], mpc_note := [' '],
          xArg := .str [' '], yArg := .str [' '],
          plate_uncertainty := .num (1 / 5), astrometric_level := .num 0,
          magnitude := PyArg.none, mag_uncertainty := PyArg.none,
          commentArg := .str ctext }
        return .tnodb ⟨base, index, dateStr, flagsStr⟩

/-- `RealOSSOSComment.from_string`: prepend `"O "` unless the stripped
comment already starts with `O` (`IndexError` on an all-whitespace
string), then delegate. -/
def RealOSSOSComment.from_string (comment : Str) : Except PyErr CommentVal := do
  match (pyStrip comment).head? with
  | Option.none => throw .indexError
  | some c0 =>
    if c0 ≠ 'O' then OSSOSComment.from_string (['O', ' '] ++ comment)
    else OSSOSComment.from_string comment

/-- `MPCComment.from_string`: try the variants in fixed priority order
(`TNOdbComment`, `OSSOSComment`, `RealOSSOSComment`, `CFEPSComment`,
`str`), catching only `ValueError` between attempts; `str` always
succeeds and returns the original line. -/
def MPCComment.from_string (line : Str) : Except PyErr CommentVal :=
  match TNOdbComment.from_string line with
  | .ok v => .ok v
  | .error .valueError =>
    match OSSOSComment.from_string line with
    | .ok v => .ok v
    | .error .valueError =>
      match RealOSSOSComment.from_string line with
      | .ok v => .ok v
      | .error .valueError =>
        match CFEPSComment.from_string line with
        | .ok v => .ok v
        | .error .valueError => .ok (.str line)
        | .error e => .error e
      | .error e => .error e
    | .error e => .error e
  | .error e => .error e

/-- `OSSOSComment.to_str` for an optional field: `" " + format(value)`
or `" " + default` when the value is `None`. -/
def toStrOpt {α : Type} (render : α → Str) (value : Option α) (dflt : Str) : Str :=
  match value with
  | some v => ' ' :: render v
  | Option.none => ' ' :: dflt

/-- `OSSOSComment.__str__`: opaque passthrough for version `T`, the
legacy layout for version `L` (raising `TypeError` on a `None` frame),
and the fixed-width layout otherwise, with `-`-filled runs for unset
numeric fields. -/
def OSSOSComment.render (c : OSSOSComment) : Except PyErr Str :=
  if c.version = ['T'] then .ok c.comment
  else if c.version = ['L'] then
    match c.frame with
    | some f => .ok (padRight ' ' 1 c.version ++ [' '] ++ padRight ' ' 10 f ++ [' '] ++ c.comment)
    | Option.none => .error .typeError
  else .ok (
    padRight ' ' 1 c.version
    ++ toStrOpt (fun f => padLeft ' ' 10 (f.take 10)) c.frame (List.replicate 10 '-')
    ++ toStrOpt (fun s => padRight ' ' 11 (s.take 11)) c.source_name (List.replicate 11 '-')
    ++ (' ' :: padRight ' ' 2 ((c.photometry_note ++ c.mpc_note).take 2))
    ++ toStrOpt (fun v => padLeft ' ' 7 (formatF 2 v)) c.x (List.replicate 7 '-')
    ++ toStrOpt (fun v => padLeft ' ' 7 (formatF 2 v)) c.y (List.replicate 7 '-')
    ++ (' ' :: padLeft ' ' 4 (formatF 2 c.plate_uncertainty))
    ++ (' ' :: intDigits c.astrometric_level)
    ++ toStrOpt (fun v => padLeft ' ' 5 (formatF 2 v)) c.mag (List.replicate 5 '-')
    ++ toStrOpt (fun v => padLeft ' ' 4 (formatF 2 v)) c.mag_uncertainty (List.replicate 4 '-')
    ++ ([' ', '%', ' '] ++ c.comment))

/-- `str(comment)` at the `Observation` level: strings render as
themselves, comment objects through `OSSOSComment.__str__`. -/
def CommentVal.render : CommentVal → Except PyErr Str
  | .str s => .ok s
  | .ossos c => c.render
  | .tnodb t => t.base.render

end MPC

namespace MPC

/-! ## The MPC time format (`TimeMPC`, `mpc.py` lines 343–468)

The `sofa_time.dtf_jd` / `jd_dtf` pair is an external capability
("calendar⇄Julian-day" in the design document); it is modelled at the
granularity the codec observes: a time value carries the calendar date
and the exact seconds of day, and the inverse returns that date with
the time of day rounded to `ndp = 6` decimal places of a second. -/

/-- Modelled from the spec: the value `sofa_time.dtf_jd` produces.
Calendar date plus exact (rational) seconds of day. -/
structure SofaTime where
  year : ℕ
  month : ℕ
  day : ℕ
  daysec : ℚ
  deriving DecidableEq, Repr

/-- Python `time.strptime(s, '%Y %m %d')` restricted to the shapes this
codec feeds it: three whitespace-separated digit groups (year up to four
digits, month/day up to two), no surrounding whitespace, months 1–12 and
days 1–31. -/
def strptimeYMD (s : Str) : Option (ℕ × ℕ × ℕ) :=
  match splitWs s with
  | [ys, ms, ds] =>
    if s.head?.elim false isPyWs || s.getLast?.elim false isPyWs then Option.none
    else
      match parseNat? ys, parseNat? ms, parseNat? ds with
      | some y, some m, some d =>
        if ys.length ≤ 4 ∧ ms.length ≤ 2 ∧ ds.length ≤ 2 ∧
           1 ≤ m ∧ m ≤ 12 ∧ 1 ≤ d ∧ d ≤ 31 then some (y, m, d)
        else Option.none
      | _, _, _ => Option.none
  | _ => Option.none

/-- `TimeMPC.set_jds` on one string: split at the last `.` (everything
from the dot on is the day fraction, parsed by `float`), `strptime` the
calendar part, convert the fraction to hours / minutes / seconds by the
truncating arithmetic of the source, and assemble the (modelled)
`dtf_jd` value.  `none` models the `ValueError` that `Time(...)`
raises. -/
def timeMPCParse (s : Str) : Option SofaTime :=
  let pair : Str × Option ℚ :=
    match rfindDot s with
    | Option.none => (s, some 0)
    | some i => (s.take i, parseFloat? (s.drop i))
  match pair.2, strptimeYMD pair.1 with
  | some fd, some (y, m, d) =>
    let ihr : ℤ := ⌊24 * fd⌋
    let imin : ℤ := ⌊60 * (24 * fd - ihr)⌋
    let dsec : ℚ := 60 * (60 * (24 * fd - ihr) - imin)
    some ⟨y, m, d, 3600 * (ihr : ℚ) + 60 * (imin : ℚ) + dsec⟩
  | _, _ => Option.none

/-- Modelled from the spec: `sofa_time.jd_dtf(scale, 6, jd1, jd2)` —
hours, minutes, seconds and microseconds of the time of day, rounded to
six decimal places of a second. -/
def jdDtf6 (t : SofaTime) : ℕ × ℕ × ℕ × ℕ :=
  let u : ℕ := (pyRound (t.daysec * 1000000)).toNat
  (u / 3600000000, u % 3600000000 / 60000000, u % 60000000 / 1000000, u % 1000000)

/-- Python `'{0:06g}'.format`: on the nonnegative integral values below
`10^6` produced by an in-range day fraction this is the decimal digits
zero-filled to width six; values outside that range cannot arise from
`timeMPCParse` output (a fixed-point rendering stands in off-range). -/
def format06g (q : ℚ) : Str :=
  if q.den = 1 ∧ 0 ≤ q.num ∧ q.num < 1000000 then zeroPadMin 6 q.num.toNat
  else formatF 6 q

/-- `TimeMPC.str_kwargs` plus the `mpc` format string
`"{year:4d} {mon:02d} {day:02d}.{fracday}"`: the fractional day is
reassembled from the decomposed time, `%06g`-formatted and truncated to
the stored precision. -/
def timeMPCRender (t : SofaTime) (precision : ℕ) : Str :=
  let q := jdDtf6 t
  let fracday : ℚ :=
    ((((q.2.2.2 : ℚ) / 1000000 + (q.2.2.1 : ℚ)) / 60 + (q.2.1 : ℚ)) / 60 + (q.1 : ℚ))
      / 24 * 1000000
  let fs := (format06g fracday).take precision
  padLeft ' ' 4 (natDigits t.year) ++ [' ']
    ++ zeroPadMin 2 t.month ++ [' '] ++ zeroPadMin 2 t.day ++ '.' :: fs

/-! ## Sexagesimal angles (external capability, modelled from the spec) -/

/-- Modelled from the spec: sexagesimal parsing by
`ICRSCoordinates(val1, val2, unit=(hour, degree))` for the shapes in
play — three whitespace-separated fields `[sign]UU MM SS[.fff]` with
minutes and seconds below 60; exact rational value. -/
def parseSexagesimal (s : Str) : Option ℚ :=
  match splitWs s with
  | [t0, t1, t2] =>
    let su : ℚ × Str :=
      match t0 with
      | '-' :: rest => (-1, rest)
      | '+' :: rest => (1, rest)
      | _ => (1, t0)
    match parseNat? su.2, parseNat? t1, parseUnsignedDec? t2 with
    | some u, some m, some sec =>
      if m < 60 ∧ sec < 60 then some (su.1 * ((u : ℚ) + (m : ℚ) / 60 + sec / 3600))
      else Option.none
    | _, _, _ => Option.none
  | _ => Option.none

/-- Modelled from the spec: `Angle.format(unit, sep=" ", precision=p,
pad=True[, alwayssign])` — two-digit zero-padded leading fields, seconds
with exactly `p` decimals (no decimal point when `p = 0`), nearest
rounding. -/
def renderSexagesimal (v : ℚ) (p : ℕ) (alwayssign : Bool) : Str :=
  let sign : Str := if v < 0 then ['-'] else if alwayssign then ['+'] else []
  let sp : ℕ := 10 ^ p
  let t : ℕ := (pyRound (|v| * 3600 * (sp : ℚ))).toNat
  sign ++ zeroPadMin 2 (t / (3600 * sp)) ++ [' ']
    ++ natDigitsPadded 2 (t % (3600 * sp) / (60 * sp)) ++ [' ']
    ++ natDigitsPadded 2 (t % (60 * sp) / sp)
    ++ (if p = 0 then [] else '.' :: natDigitsPadded p (t % sp))

/-! ## Observation (`mpc.py` lines 471–844) -/

structure Observation where
  null_observation : NullObservation
  provisional_name : Str
  discovery : Discovery
  note1 : MPCNote
  note2 : MPCNote
  date : SofaTime
  date_precision : ℕ
  coordRa : ℚ
  coordDec : ℚ
  ra_precision : ℕ
  dec_precision : ℕ
  mag : Option ℚ
  mag_precision : ℕ
  mag_err : Option ℚ
  band : Option Str
  observatory_code : Str
  comment : CommentVal
  deriving DecidableEq, Repr

/-- The eleven data fields of the `'1s11s1s1s1s17s12s12s9x5s1s6x3s'`
unpack of the 80-column core line. -/
structure ObsFields where
  nullCh : Str
  nameField : Str
  discCh : Str
  note1Ch : Str
  note2Ch : Str
  dateField : Str
  raField : Str
  decField : Str
  magField : Str
  bandCh : Str
  codeField : Str
  deriving DecidableEq, Repr

/-- `struct.unpack` for the observation line format (fails unless the
length is exactly 80). -/
def unpackObs (s : Str) : Option ObsFields :=
  if s.length = 80 then
    some ⟨s.take 1, (s.drop 1).take 11, (s.drop 12).take 1, (s.drop 13).take 1,
          (s.drop 14).take 1, (s.drop 15).take 17, (s.drop 32).take 12,
          (s.drop 44).take 12, (s.drop 65).take 5, (s.drop 70).take 1,
          (s.drop 77).take 3⟩
  else Option.none

/-- `Observation.date` setter: capture the precision from the input
string, then parse; parse failures become `MPCFieldFormatError`. -/
def Observation.setDate (dateStr : Str) : Except PyErr (SofaTime × ℕ) :=
  let p := compute_precision dateStr
  match timeMPCParse dateStr with
  | some t => .ok (t, p)
  | Option.none => .error .mpcFieldFormat

/-- `Observation.coordinate` setter: try both values as plain floats
(decimal degrees, fixed precisions (3,2); right ascension is stored in
hours); otherwise parse both sexagesimally, capturing each precision
from its string.  Failures raise `MPCFieldFormatError`. -/
def Observation.setCoordinate (v1 v2 : Str) : Except PyErr (ℚ × ℚ × ℕ × ℕ) :=
  match parseFloat? v1, parseFloat? v2 with
  | some raDeg, some decDeg => .ok (raDeg / 15, decDeg, 3, 2)
  | _, _ =>
    match parseSexagesimal v1, parseSexagesimal v2 with
    | some raH, some dec => .ok (raH, dec, compute_precision v1, compute_precision v2)
    | _, _ => .error .mpcFieldFormat

/-- `Observation.mag` setter: blank clears (precision 0) before any
conversion; a negative value also clears; otherwise store the float with
precision `min(1, decimals of the input string)`.  A non-blank
unparseable string raises `ValueError` (uncaught in the source). -/
def Observation.setMag (magStr : Str) : Except PyErr (Option ℚ × ℕ) :=
  if (stripSpaces magStr).length = 0 then .ok (Option.none, 0)
  else
    match parseFloat? magStr with
    | Option.none => .error .valueError
    | some v =>
      if v < 0 then .ok (Option.none, 0)
      else .ok (some v, min 1 (compute_precision magStr))

/-- `Observation.band` setter: first character of the space-stripped
string, or `None`. -/
def Observation.setBand (bandStr : Str) : Option Str :=
  match (stripSpaces bandStr).head? with
  | some c => some [c]
  | Option.none => Option.none

/-- `Observation.observatory_code` setter: at most three characters. -/
def Observation.setObservatoryCode (code : Str) : Except PyErr Str :=
  if code.length ≤ 3 then .ok code else .error .mpcFieldFormat

/-- `Observation.__init__` as invoked by `from_string` (all eleven
arguments are the unpacked string fields; setters run in source order,
so e.g. an invalid discovery column raises before the notes or the date
are examined).  The `OSSOSComment` built here (with the *raw* name field
as source name and the magnitude string as magnitude) is immediately
overwritten by `from_string`, and cannot itself raise for these
arguments. -/
def Observation.init (f : ObsFields) : Except PyErr Observation := do
  let nullObs := NullObservation.ofStr f.nullCh
  let name := pyStrip f.nameField
  let disc ← Discovery.mk? (.str f.discCh)
  let n1 ← MPCNote.mk? f.note1Ch NoteType.note1
  let n2 ← MPCNote.mk? f.note2Ch NoteType.note2
  let dtp ← Observation.setDate f.dateField
  let coords ← Observation.setCoordinate f.raField f.decField
  let mgp ← Observation.setMag f.magField
  let me : Option ℚ := if mgp.1.isSome then some (-1) else Option.none
  let bd := Observation.setBand f.bandCh
  let code ← Observation.setObservatoryCode f.codeField
  let c0 ← OSSOSComment.init {
    version := ['O'], frame := PyArg.none, source_name := .str f.nameField,
    photometry_note := [], mpc_note := n1.code,
    xArg := PyArg.none, yArg := PyArg.none,
    plate_uncertainty := PyArg.none, astrometric_level := .num 0,
    magnitude := .str f.magField, mag_uncertainty := .num (-1),
    commentArg := PyArg.none }
  return {
    null_observation := nullObs, provisional_name := name, discovery := disc,
    note1 := n1, note2 := n2, date := dtp.1, date_precision := dtp.2,
    coordRa := coords.1, coordDec := coords.2.1,
    ra_precision := coords.2.2.1, dec_precision := coords.2.2.2,
    mag := mgp.1, mag_precision := mgp.2, mag_err := me, band := bd,
    observatory_code := code, comment := .ossos c0 }

/-- The three result shapes of `Observation.from_string`: a standalone
comment (for `#` lines), "no record" (`None`, wrong core width), or an
observation. -/
inductive FromStringResult where
  | comm (c : CommentVal)
  | noRecord
  | obs (o : Observation)
  deriving DecidableEq, Repr

/-- `Observation.from_string`: strip newlines; `#` lines parse as a
standalone comment; otherwise `comment = mpc_line[81:]` (note: *81*, the
character at index 80 is discarded) and `mpc_line = mpc_line[0:80]`;
a core that is not exactly 80 columns returns no record; then unpack,
construct, attach the parsed trailing comment (backfilling a `None`
source name), and mark the discovery flag when a TNOdb comment's flag
string starts with `'1'`. -/
def Observation.from_string (input_line : Str) : Except PyErr FromStringResult := do
  let mpc_line := stripOn ['\n'] input_line
  if mpc_line.head? = some '#' then
    let c ← MPCComment.from_string (mpc_line.drop 1)
    return .comm c
  else
    let commentPart := mpc_line.drop 81
    let core := mpc_line.take 80
    if core.length ≠ 80 then return .noRecord
    else
      match unpackObs core with
      | Option.none => return .noRecord
      | some fields => do
        let o ← Observation.init fields
        let cm0 ← MPCComment.from_string commentPart
        let cm := match cm0 with
          | .ossos c =>
            if c.source_name = Option.none
            then CommentVal.ossos { c with source_name := some o.provisional_name }
            else CommentVal.ossos c
          | .tnodb t =>
            if t.base.source_name = Option.none
            then CommentVal.tnodb
              { t with base := { t.base with source_name := some o.provisional_name } }
            else CommentVal.tnodb t
          | other => other
        match cm with
        | .tnodb t =>
          match t.flagsStr.head? with
          | Option.none => throw .indexError
          | some fc =>
            if fc = '1' then do
              let d ← o.discovery.set_is_discovery (.bool true)
              return .obs { o with comment := cm, discovery := d }
            else return .obs { o with comment := cm }
        | _ => return .obs { o with comment := cm }

/-- `Observation.__str__`: the fixed 80-column rendering.  The
magnitude block is `'{0:<5.pf}{1:1s}'` (raising `TypeError` when a
magnitude is present without a band) or six blanks, and must come to
exactly six characters (`MPCFieldFormatError` otherwise). -/
def Observation.render (o : Observation) : Except PyErr Str := do
  let padding : Str := if 7 < o.provisional_name.length then [] else List.replicate 4 ' '
  let magStr ← (match o.mag with
    | Option.none => Except.ok (List.replicate 6 ' ')
    | some m =>
      match o.band with
      | Option.none => Except.error PyErr.typeError
      | some b => Except.ok (padRight ' ' 5 (formatF o.mag_precision m) ++ padRight ' ' 1 b))
  if magStr.length ≠ 6 then throw .mpcFieldFormat
  else
    return padRight ' ' 12
        (NullObservation.render o.null_observation ++ padding ++ o.provisional_name)
      ++ Discovery.render o.discovery
      ++ padRight ' ' 1 o.note1.code ++ padRight ' ' 1 o.note2.code
      ++ padRight ' ' 17 (timeMPCRender o.date o.date_precision)
      ++ padRight ' ' 12 (renderSexagesimal o.coordRa o.ra_precision false)
      ++ padRight ' ' 12 (renderSexagesimal o.coordDec o.dec_precision true)
      ++ List.replicate 9 ' '
      ++ magStr
      ++ List.replicate 6 ' '
      ++ padLeft ' ' 3 o.observatory_code

/-- `Observation.to_string`: the 80-column line, plus a space and the
rendered comment when that is nonempty. -/
def Observation.to_string (o : Observation) : Except PyErr Str := do
  let s ← o.render
  let cs ← CommentVal.render o.comment
  if cs.length ≠ 0 then return s ++ [' '] ++ cs
  else return s

/-- The six-character magnitude block of `Observation.__str__` in the
two canonical configurations (both of magnitude and band set, or
neither). -/
def magStrOf (o : Observation) : Str :=
  match o.mag, o.band with
  | some m, some b => padRight ' ' 5 (formatF o.mag_precision m) ++ padRight ' ' 1 b
  | _, _ => List.replicate 6 ' '

/-- The 80-column core that `Observation.__str__` produces for a record
whose fields fit their slots (the value `Observation.render` returns
under the canonical conditions). -/
def coreOf (o : Observation) : Str :=
  padRight ' ' 12 (NullObservation.render o.null_observation ++
      (if 7 < o.provisional_name.length then [] else List.replicate 4 ' ') ++
      o.provisional_name)
    ++ Discovery.render o.discovery
    ++ padRight ' ' 1 o.note1.code ++ padRight ' ' 1 o.note2.code
    ++ padRight ' ' 17 (timeMPCRender o.date o.date_precision)
    ++ padRight ' ' 12 (renderSexagesimal o.coordRa o.ra_precision false)
    ++ padRight ' ' 12 (renderSexagesimal o.coordDec o.dec_precision true)
    ++ List.replicate 9 ' '
    ++ magStrOf o
    ++ List.replicate 6 ' '
    ++ padLeft ' ' 3 o.observatory_code

/-- The canonical magnitude/band configurations: both unset (precision
0, no `-1` error placeholder) or both set, with a one-character band,
the stored magnitude re-parsing exactly from its at-most-five-character
fixed-width rendering, and the `-1` error placeholder. -/
def canonicalMagBand (o : Observation) : Bool :=
  match o.mag, o.band with
  | Option.none, Option.none =>
    decide (o.mag_precision = 0) && decide (o.mag_err = Option.none)
  | some m, some b =>
    decide ((formatF o.mag_precision m).length ≤ 5) &&
    decide (b.length = 1) &&
    decide (Observation.setMag (padRight ' ' 5 (formatF o.mag_precision m))
      = Except.ok (some m, o.mag_precision)) &&
    decide (Observation.setBand b = some b) &&
    decide (o.mag_err = some (-1))
  | _, _ => false

/-- The canonical comment payloads: the empty opaque string (attached to
bare 80-column lines), or a comment whose rendering is nonempty, does
not end in a newline, and re-parses through the dispatcher to exactly
itself; survey comments must carry a source name so the parse-side
backfill is a no-op.  Database-internal comments are excluded (their
flag lines feed the discovery flag). -/
def canonicalComment (o : Observation) : Bool :=
  match CommentVal.render o.comment with
  | .error _ => false
  | .ok cs =>
    match o.comment with
    | .str s =>
      decide (s = []) ||
      (decide (cs.length ≠ 0) && decide (cs.getLast? ≠ some '\n') &&
       decide (MPCComment.from_string cs = .ok (.str s)))
    | .ossos c =>
      decide (cs.length ≠ 0) && decide (cs.getLast? ≠ some '\n') &&
      c.source_name.isSome &&
      decide (MPCComment.from_string cs = .ok (.ossos c))
    | .tnodb _ => false

/-- Canonical observation records: the field shapes produced by parsing
a syntactically valid 80-column line whose captured precisions are
faithful to the stored values (in particular at most one decimal of
magnitude, which is all the parser ever captures), restricted to names
of at most 7 characters, 3-character observatory codes, and
survey-standard or opaque trailing comments. -/
def CanonicalObs (o : Observation) : Bool :=
  decide (o.null_observation.null_observation_character = '!') &&
  decide (pyStrip o.provisional_name = o.provisional_name) &&
  decide (o.provisional_name.length ≤ 7) &&
  decide (Discovery.mk? (.str (Discovery.render o.discovery)) = .ok o.discovery) &&
  decide (o.note1.code.length ≤ 1) &&
  decide (o.note2.code.length ≤ 1) &&
  decide (MPCNote.mk? (MPCNote.render o.note1) .note1 = .ok o.note1) &&
  decide (MPCNote.mk? (MPCNote.render o.note2) .note2 = .ok o.note2) &&
  decide ((timeMPCRender o.date o.date_precision).length ≤ 17) &&
  decide ((renderSexagesimal o.coordRa o.ra_precision false).length ≤ 12) &&
  decide ((renderSexagesimal o.coordDec o.dec_precision true).length ≤ 12) &&
  decide (Observation.setDate (padRight ' ' 17 (timeMPCRender o.date o.date_precision))
    = Except.ok (o.date, o.date_precision)) &&
  decide (Observation.setCoordinate
      (padRight ' ' 12 (renderSexagesimal o.coordRa o.ra_precision false))
      (padRight ' ' 12 (renderSexagesimal o.coordDec o.dec_precision true))
    = Except.ok (o.coordRa, o.coordDec, o.ra_precision, o.dec_precision)) &&
  canonicalMagBand o &&
  decide (o.observatory_code.length = 3) &&
  decide (pyStrip o.observatory_code = o.observatory_code) &&
  canonicalComment o

end MPC

namespace MPC

/-! ## Concrete instances used by the claim theorems -/

/-- The spec's scenario line, exactly as written (82 characters; the
discovery column, index 12, holds `A`). -/
def scenarioLine : Str :=
  [' ', ' ', ' ', ' ', ' ', 'K', '1', '3', 'T', '0', '1', ' ', 'A', '*', '2', ' ', 'C', '2', '0', '1', '3', ' ', '1', '0', ' ', '0', '5', '.', '4', '1', '2', '6', '8', '3', '1', '2', ' ', '3', '4', ' ', '4', '5', '.', '6', '7', '1', '-', '2', '0', ' ', '2', '8', ' ', '1', '5', '.', '9', '0', ' ', ' ', ' ', ' ', ' ', ' ', ' ', ' ', ' ', '2', '0', '.', '6', '3', 'R', ' ', ' ', ' ', ' ', ' ', ' ', '5', '6', '8']

/-- The scenario line re-aligned to the 80-column layout of §6 (name in
columns 6–12, `*` in column 13, notes `A`,`C` in columns 14–15). -/
def scenarioLineAligned : Str :=
  [' ', ' ', ' ', ' ', ' ', 'K', '1', '3', 'T', '0', '1', ' ', '*', 'A', 'C', '2', '0', '1', '3', ' ', '1', '0', ' ', '0', '5', '.', '4', '1', '2', '6', '8', '3', '1', '2', ' ', '3', '4', ' ', '4', '5', '.', '6', '7', '1', '-', '2', '0', ' ', '2', '8', ' ', '1', '5', '.', '9', '0', ' ', ' ', ' ', ' ', ' ', ' ', ' ', ' ', ' ', '2', '0', '.', '6', '3', 'R', ' ', ' ', ' ', ' ', ' ', ' ', '5', '6', '8']

/-- The record that `Observation.from_string` produces for
`scenarioLineAligned`. -/
def scenarioRecord : Observation where
  null_observation := ⟨'!', false⟩
  provisional_name := ['K', '1', '3', 'T', '0', '1']
  discovery := ⟨true, true⟩
  note1 := ⟨NoteType.note1, ['A']⟩
  note2 := ⟨NoteType.note2, ['C']⟩
  date := ⟨2013, 10, 5, 22284882 / 625⟩
  date_precision := 6
  coordRa := 45285671 / 3600000
  coordDec := -245653 / 12000
  ra_precision := 3
  dec_precision := 2
  mag := some (2063 / 100)
  mag_precision := 1
  mag_err := some (-1)
  band := some ['R']
  observatory_code := ['5', '6', '8']
  comment := .str []

/-- A standard fixed-width OSSOS comment (62-character front section,
`%`, free text). -/
def stdComment : Str :=
  ['O', ' ', '1', '6', '3', '1', '3', '5', '5', 'p', '2', '1', ' ', 'O', '1', '3', 'A', 'E', '2', 'O', ' ', ' ', ' ', ' ', ' ', 'Y', ' ', ' ', '1', '6', '3', '2', '.', '2', '0', ' ', '1', '1', '0', '2', '.', '7', '0', ' ', '0', '.', '2', '1', ' ', '2', ' ', '2', '4', '.', '3', '1', ' ', '0', '.', '0', '7', ' ', '%', ' ', 'h', 'e', 'l', 'l', 'o', ' ', 't', 'h', 'e', 'r', 'e']

/-- An 80-column line with a two-decimal magnitude field (`20.63`),
followed by the separator column and a standard comment. -/
def twoDecimalMagLine : Str := scenarioLineAligned ++ [' '] ++ stdComment

/-- The same line with the magnitude already at the stored one-decimal
precision (`20.6 `). -/
def oneDecimalMagLine : Str :=
  [' ', ' ', ' ', ' ', ' ', 'K', '1', '3', 'T', '0', '1', ' ', '*', 'A', 'C', '2', '0', '1', '3', ' ', '1', '0', ' ', '0', '5', '.', '4', '1', '2', '6', '8', '3', '1', '2', ' ', '3', '4', ' ', '4', '5', '.', '6', '7', '1', '-', '2', '0', ' ', '2', '8', ' ', '1', '5', '.', '9', '0', ' ', ' ', ' ', ' ', ' ', ' ', ' ', ' ', ' ', '2', '0', '.', '6', ' ', 'R', ' ', ' ', ' ', ' ', ' ', ' ', '5', '6', '8'] ++ [' '] ++ stdComment

/-- A 58-character string whose first 14 columns match the TNOdb index
pattern and whose comment section (column 57 on) is `%x`. -/
def tnodbIndexErrLine : Str :=
  ['1', '2', '3', '4', '5', '6', '7', '8', '_', 'a', 'b', 'c', '_', 'd', ' ', ' ', ' ', ' ', ' ', ' ', ' ', ' ', ' ', ' ', ' ', ' ', ' ', ' ', ' ', ' ', ' ', ' ', ' ', ' ', ' ', ' ', ' ', ' ', ' ', ' ', ' ', ' ', ' ', ' ', ' ', ' ', ' ', ' ', ' ', ' ', ' ', ' ', ' ', ' ', ' ', ' ', '%', 'x']

/-- A 60-character TNOdb comment line (index, date, flags, no trailing
comment text). -/
def tnodbOkLine : Str :=
  ['1', '2', '3', '4', '5', '6', '7', '8', '_', 'a', 'b', 'c', '_', 'd', ' ', '2', '0', '1', '3', '0', '4', '0', '5', ' ', '1', '0', '0', '0', '0', '0', '0', '0', '0', '0', ' ', ' ', ' ', ' ', ' ', ' ', ' ', ' ', ' ', ' ', ' ', ' ', ' ', ' ', ' ', ' ', ' ', ' ', ' ', ' ', ' ', ' ', ' ', ' ', ' ', ' ']

/-- The `TNOdbComment` parsed from `tnodbOkLine`. -/
def tnodbOkVal : TNOdbComment where
  base := { version := ['T'], frame := some [' '], source_name := some [],
             photometry_note := ['Z'], mpc_note := [' '],
             x := Option.none, y := Option.none,
             plate_uncertainty := 1 / 5, astrometric_level := 0,
             mag := Option.none, mag_uncertainty := Option.none, comment := [] }
  index := ['1', '2', '3', '4', '5', '6', '7', '8', '_', 'a', 'b', 'c', '_', 'd']
  dateStr := ['2', '0', '1', '3', '0', '4', '0', '5']
  flagsStr := ['1', '0', '0', '0', '0', '0', '0', '0', '0', '0']

/-- One index-file line: master name `A` in the first 10 columns, one
alias `X` in the next 10-column slice. -/
def idxLine1 : Str :=
  ['A', ' ', ' ', ' ', ' ', ' ', ' ', ' ', ' ', ' ', 'X']

/-- Two writer records sharing the day `jd = 1`, with different bodies. -/
def recAlpha : WObs := ⟨1, false, ⟨false, false⟩, ['a']⟩

def recBeta : WObs := ⟨1, false, ⟨false, false⟩, ['b']⟩

/-- A null observation pre-marked as an initial discovery (`*`). -/
def recNullStar : WObs := ⟨1, true, ⟨true, true⟩, ['n']⟩

/-- A later, ordinary non-null record. -/
def recPlain : WObs := ⟨2, false, ⟨false, false⟩, ['r']⟩

/-- An empty comment stub used to exercise the magnitude setter. -/
def emptyOssos : OSSOSComment where
  version := ['O']
  frame := Option.none
  source_name := Option.none
  photometry_note := [' ']
  mpc_note := [' ']
  x := Option.none
  y := Option.none
  plate_uncertainty := 1 / 5
  astrometric_level := 0
  mag := Option.none
  mag_uncertainty := Option.none
  comment := []

end MPC

namespace MPC

/-! ## Writer invariant predicates -/

/-- Well-formedness of a `Discovery` value as produced by the record
API: the initial-discovery flag implies the discovery flag.  (Every
`Discovery` built by `Discovery.__init__` or mutated by the writer
satisfies this; only a direct field write could break it.) -/
def discWF (d : Discovery) : Prop := d.is_initial = true → d.is_disc = true

/-- The discovery bookkeeping invariant of a writer state: no `*` line
before the discovery-written flag is set, never more than one `*` line,
every discovery-marked emission renders `*` or `&`, and all buffered
records are well-formed. -/
def WInv (s : WriterState) : Prop :=
  (s.discovery_written = false → countStar s.output = 0) ∧
  countStar s.output ≤ 1 ∧
  (∀ e ∈ s.output, e.discMarked = true → e.marker = ['*'] ∨ e.marker = ['&']) ∧
  (∀ p ∈ s.buffer, discWF (Prod.snd p).disc)

/-- The deduplication invariant of a writer state: emitted Julian Days
are pairwise distinct and all recorded in the persistent written set. -/
def DInv (s : WriterState) : Prop :=
  (s.output.map EmitLine.jd).Nodup ∧ ∀ e ∈ s.output, e.jd ∈ s.written

end MPC

namespace MPC

/-! ## Round-trip lemmas for digit strings -/

theorem digitChar_charDigit {c : Char} (h : isDigitCh c = true) :
    digitChar (charDigit c) = c := by
  simp only [isDigitCh, Bool.and_eq_true, decide_eq_true_eq] at h
  have : 48 + charDigit c = c.toNat := by
    simp only [charDigit]; omega
  simp only [digitChar, this]
  exact Char.ofNat_toNat c

theorem charDigit_digitChar {n : ℕ} (h : n < 10) : charDigit (digitChar n) = n := by
  interval_cases n <;> rfl

theorem isDigitCh_digitChar {n : ℕ} (h : n < 10) : isDigitCh (digitChar n) = true := by
  interval_cases n <;> rfl

theorem digitsVal_append (s : Str) (c : Char) :
    digitsVal (s ++ [c]) = 10 * digitsVal s + charDigit c := by
  simp [digitsVal, List.foldl_append]

theorem digitsVal_lt {s : Str} (h : s.all isDigitCh = true) :
    digitsVal s < 10 ^ s.length := by
  induction s using List.reverseRecOn with
  | nil => simp [digitsVal]
  | append_singleton t c ih =>
    simp only [List.all_append, Bool.and_eq_true, List.all_cons, List.all_nil,
      Bool.and_true] at h
    have hc : charDigit c < 10 := by
      have := h.2
      simp only [isDigitCh, Bool.and_eq_true, decide_eq_true_eq] at this
      simp only [charDigit]; omega
    have := ih h.1
    rw [digitsVal_append, List.length_append]
    simp only [List.length_cons, List.length_nil]
    calc 10 * digitsVal t + charDigit c < 10 * digitsVal t + 10 := by omega
      _ ≤ 10 * 10 ^ t.length := by omega
      _ = 10 ^ (t.length + 1) := by ring

theorem natDigitsPadded_append (w : ℕ) (n : ℕ) :
    natDigitsPadded (w + 1) n = natDigitsPadded w (n / 10) ++ [digitChar (n % 10)] := rfl

/-- Printing back the value of a digit string at its own width restores
the string, leading zeros included. -/
theorem natDigitsPadded_digitsVal {s : Str} (h : s.all isDigitCh = true) :
    natDigitsPadded s.length (digitsVal s) = s := by
  induction s using List.reverseRecOn with
  | nil => rfl
  | append_singleton t c ih =>
    simp only [List.all_append, Bool.and_eq_true, List.all_cons, List.all_nil,
      Bool.and_true] at h
    have hc : charDigit c < 10 := by
      have := h.2
      simp only [isDigitCh, Bool.and_eq_true, decide_eq_true_eq] at this
      simp only [charDigit]; omega
    rw [List.length_append, digitsVal_append]
    simp only [List.length_cons, List.length_nil]
    rw [natDigitsPadded_append]
    have hdiv : (10 * digitsVal t + charDigit c) / 10 = digitsVal t := by omega
    have hmod : (10 * digitsVal t + charDigit c) % 10 = charDigit c := by omega
    rw [hdiv, hmod, ih h.1, digitChar_charDigit h.2]

theorem digitsVal_natDigitsPadded {w n : ℕ} (h : n < 10 ^ w) :
    digitsVal (natDigitsPadded w n) = n := by
  induction w generalizing n with
  | zero =>
    simp only [pow_zero, Nat.lt_one_iff] at h
    simp [h, natDigitsPadded, digitsVal]
  | succ w ih =>
    rw [natDigitsPadded_append, digitsVal_append,
      charDigit_digitChar (Nat.mod_lt _ (by omega))]
    have hdiv : n / 10 < 10 ^ w := by
      rw [pow_succ] at h
      exact Nat.div_lt_of_lt_mul (by omega)
    rw [ih hdiv]
    omega

theorem natDigitsPadded_all_digits (w n : ℕ) :
    (natDigitsPadded w n).all isDigitCh = true := by
  induction w generalizing n with
  | zero => rfl
  | succ w ih =>
    rw [natDigitsPadded_append, List.all_append]
    simp only [Bool.and_eq_true]
    exact ⟨ih _, by simp [isDigitCh_digitChar (Nat.mod_lt n (by omega))]⟩

theorem natDigitsPadded_length (w n : ℕ) : (natDigitsPadded w n).length = w := by
  induction w generalizing n with
  | zero => rfl
  | succ w ih => rw [natDigitsPadded_append]; simp [ih]

theorem numDigitsAux_irrel : ∀ (n fuel1 fuel2 : ℕ), n ≤ fuel1 → n ≤ fuel2 →
    numDigitsAux fuel1 n = numDigitsAux fuel2 n := by
  intro n
  induction n using Nat.strong_induction_on with
  | _ n ih =>
    intro fuel1 fuel2 h1 h2
    match fuel1, fuel2 with
    | 0, 0 => rfl
    | 0, f2 + 1 =>
      have : n = 0 := by omega
      subst this
      simp [numDigitsAux]
    | f1 + 1, 0 =>
      have : n = 0 := by omega
      subst this
      simp [numDigitsAux]
    | f1 + 1, f2 + 1 =>
      simp only [numDigitsAux]
      split
      · rfl
      · next h =>
        have hlt : n / 10 < n := Nat.div_lt_self (by omega) (by omega)
        rw [ih (n / 10) hlt f1 f2 (by omega) (by omega)]

/-- The defining recurrence of `numDigits`. -/
theorem numDigits_rec (n : ℕ) :
    numDigits n = if n < 10 then 1 else numDigits (n / 10) + 1 := by
  rw [numDigits]
  match n with
  | 0 => rfl
  | m + 1 =>
    simp only [numDigitsAux]
    split
    · rfl
    · next h =>
      have hlt : (m + 1) / 10 < m + 1 := Nat.div_lt_self (by omega) (by omega)
      rw [numDigitsAux_irrel ((m + 1) / 10) m ((m + 1) / 10) (by omega) (le_refl _)]
      rfl

theorem lt_pow_numDigits (n : ℕ) : n < 10 ^ numDigits n := by
  induction n using Nat.strong_induction_on with
  | _ n ih =>
    rw [numDigits_rec]
    split
    · next h => simpa using h
    · next h =>
      have hd := ih (n / 10) (Nat.div_lt_self (by omega) (by omega))
      rw [pow_succ]
      omega

theorem numDigits_pos (n : ℕ) : 1 ≤ numDigits n := by
  rw [numDigits_rec]; split <;> omega

theorem digitsVal_natDigits (n : ℕ) : digitsVal (natDigits n) = n :=
  digitsVal_natDigitsPadded (lt_pow_numDigits n)

theorem natDigits_all_digits (n : ℕ) : (natDigits n).all isDigitCh = true :=
  natDigitsPadded_all_digits _ _

theorem natDigits_length (n : ℕ) : (natDigits n).length = numDigits n :=
  natDigitsPadded_length _ _

theorem numDigits_le_of_lt_pow {n w : ℕ} (hw : 0 < w) (h : n < 10 ^ w) :
    numDigits n ≤ w := by
  induction w generalizing n with
  | zero => omega
  | succ w ih =>
    rw [numDigits_rec]
    split
    · omega
    · next hn =>
      rcases Nat.eq_zero_or_pos w with rfl | hw'
      · rw [pow_one] at h; omega
      · have hlt : n / 10 < 10 ^ w := by
          rw [pow_succ] at h
          exact Nat.div_lt_of_lt_mul (by omega)
        have := ih hw' hlt
        omega

/-- Widening a padded print by one column prepends a zero when the value
already fits. -/
theorem natDigitsPadded_succ_of_lt {w n : ℕ} (h : n < 10 ^ w) :
    natDigitsPadded (w + 1) n = '0' :: natDigitsPadded w n := by
  induction w generalizing n with
  | zero =>
    simp only [pow_zero, Nat.lt_one_iff] at h
    subst h
    rfl
  | succ w ih =>
    have hdiv : n / 10 < 10 ^ w := by
      rw [pow_succ] at h
      exact Nat.div_lt_of_lt_mul (by omega)
    rw [natDigitsPadded_append, ih hdiv, natDigitsPadded_append]
    rfl

/-- Zero-padding the plain digits of `n` to width `w` is exactly the
`w`-wide padded print, provided `n` fits in `w` digits. -/
theorem zeroPadMin_eq_padded {w n : ℕ} (hw : 0 < w) (h : n < 10 ^ w) :
    zeroPadMin w n = natDigitsPadded w n := by
  induction w with
  | zero => omega
  | succ w ih =>
    rcases Nat.lt_or_ge n (10 ^ w) with hn | hn
    · rcases Nat.eq_zero_or_pos w with rfl | hw'
      · simp only [pow_zero, Nat.lt_one_iff] at hn
        subst hn
        decide
      · rw [natDigitsPadded_succ_of_lt hn, ← ih hw' hn]
        have hlen : (natDigits n).length ≤ w := by
          rw [natDigits_length]
          exact numDigits_le_of_lt_pow hw' hn
        simp only [zeroPadMin, padLeft]
        have : w + 1 - (natDigits n).length = (w - (natDigits n).length) + 1 := by omega
        rw [this, List.replicate_succ]
        rfl
    · have hnd : numDigits n = w + 1 := by
        have h1 := numDigits_le_of_lt_pow hw h
        have h2 : w < numDigits n := by
          by_contra hcon
          push_neg at hcon
          have : n < 10 ^ w := by
            calc n < 10 ^ numDigits n := lt_pow_numDigits n
              _ ≤ 10 ^ w := Nat.pow_le_pow_right (by omega) hcon
          omega
        omega
      simp only [zeroPadMin, padLeft, natDigits, hnd, natDigitsPadded_length]
      simp

end MPC

namespace MPC

/-! ## Claim theorems

`Rat`'s arithmetic is `@[irreducible]` in the standard library, which
only affects elaborator-side unfolding; `unseal` restores default
transparency so that `decide` can evaluate the model on concrete
inputs (kernel checking is unaffected). -/

unseal Rat.add Rat.sub Rat.mul Rat.inv



/-- C10: for every 12-binary-digit flag string accepted by the
`TNOdbFlags` constructor — including strings whose first character is
`'1'` — the `is_discovery` property is `False` (the getter compares the
character `flags[0]` against the integer `1`), and assigning to
`is_discovery` leaves the stored flag string unchanged (the setter body
is a discarded comparison expression). -/
theorem C10_flags_is_discovery_never_set (flags : Str)
    (h : 12 ≤ flags.length ∧ (flags.take 12).all (fun c => c = '0' ∨ c = '1') = true) :
    ∃ f : TNOdbFlags, TNOdbFlags.mk? flags = .ok f ∧ f.flags = flags ∧
      f.is_discovery = false ∧ ∀ b : Bool, f.set_is_discovery b = f := by
  refine ⟨⟨flags⟩, ?_, rfl, rfl, fun _ => rfl⟩
  rw [TNOdbFlags.mk?, if_pos]
  exact ⟨h.1, h.2⟩

/-- Witness for C10 at the all-ones flag string (first character `'1'`). -/
theorem C10_flags_witness :
    ∃ f : TNOdbFlags,
      TNOdbFlags.mk? ['1', '1', '1', '1', '1', '1', '1', '1', '1', '1', '1', '1'] = .ok f ∧
      f.flags = ['1', '1', '1', '1', '1', '1', '1', '1', '1', '1', '1', '1'] ∧
      f.is_discovery = false ∧ ∀ b : Bool, f.set_is_discovery b = f :=
  C10_flags_is_discovery_never_set
    ['1', '1', '1', '1', '1', '1', '1', '1', '1', '1', '1', '1'] (by decide)

/-- C7: the `OSSOSComment` magnitude setter called with a value outside
the open range 15–30 (such as 35.0) forces `photometry_note` to the
failure code `Z` and leaves the stored magnitude unset; a value inside
the range sets the note to `Y` and stores the value. -/
theorem C7_comment_mag_setter (c : OSSOSComment) (v : ℚ) :
    (¬(15 < v ∧ v < 30) →
      (c.setMag (.num v)).photometry_note = ['Z'] ∧ (c.setMag (.num v)).mag = Option.none) ∧
    ((15 < v ∧ v < 30) →
      (c.setMag (.num v)).photometry_note = ['Y'] ∧ (c.setMag (.num v)).mag = some v) := by
  constructor
  · intro hv
    rw [OSSOSComment.setMag]
    simp only [pyFloat?]
    rw [if_neg hv]
    exact ⟨rfl, rfl⟩
  · intro hv
    rw [OSSOSComment.setMag]
    simp only [pyFloat?]
    rw [if_pos hv]
    exact ⟨rfl, rfl⟩

/-- Witness for C7: magnitude 35.0 is rejected (note `Z`, magnitude
unset) and magnitude 20.5 is stored (note `Y`). -/
theorem C7_comment_mag_setter_witness :
    ((emptyOssos.setMag (.num 35)).photometry_note = ['Z'] ∧
      (emptyOssos.setMag (.num 35)).mag = Option.none) ∧
    ((emptyOssos.setMag (.num (41 / 2))).photometry_note = ['Y'] ∧
      (emptyOssos.setMag (.num (41 / 2))).mag = some (41 / 2)) :=
  ⟨(C7_comment_mag_setter emptyOssos 35).1 (by norm_num),
   (C7_comment_mag_setter emptyOssos (41 / 2)).2 (by norm_num)⟩

/-- C4 counterexample: on the one-character string `" "` every
structured variant fails, but the space-separated stage of
`OSSOSComment.from_string` hits `values[0]` on an empty token list and
raises `IndexError`, which the dispatcher's `except ValueError` does not
catch — `MPCComment.from_string` raises instead of returning the
original string. -/
theorem C4_dispatcher_raises_counterexample :
    MPCComment.from_string [' '] = .error .indexError ∧
    MPCComment.from_string [' '] ≠ .ok (.str [' ']) := by
  constructor
  · decide
  · decide

/-- C4 amended: when every structured variant fails *with a
`ValueError`*, the dispatcher returns the original string unmodified
(the trailing `str` conversion never fails); but inputs on which a
variant raises a different exception class (e.g. `IndexError` on
whitespace-only strings) propagate that exception. -/
theorem C4_dispatcher_fallback (line : Str)
    (h1 : TNOdbComment.from_string line = .error .valueError)
    (h2 : OSSOSComment.from_string line = .error .valueError)
    (h3 : RealOSSOSComment.from_string line = .error .valueError)
    (h4 : CFEPSComment.from_string line = .error .valueError) :
    MPCComment.from_string line = .ok (.str line) := by
  rw [MPCComment.from_string, h1, h2, h3, h4]

/-- Witness for C4 amended at the line `"X"`, on which all four
structured variants fail with `ValueError`. -/
theorem C4_dispatcher_fallback_witness :
    MPCComment.from_string ['X'] = .ok (.str ['X']) :=
  C4_dispatcher_fallback ['X'] (by decide) (by decide) (by decide) (by decide)

/-- C5 counterexample: `tnodbIndexErrLine` satisfies the
database-internal layout conditions the claim names (minimum length and
the index pattern), and every string is accepted by the generic
fallback, yet the dispatcher does not return a database-internal parse:
the embedded comment section `%x` makes the inner
`OSSOSComment.from_string` raise `IndexError`, which escapes
`TNOdbComment.from_string` and the dispatcher alike. -/
theorem C5_priority_counterexample :
    (56 ≤ tnodbIndexErrLine.length ∧
      tnodbIndexMatch (pyStrip (tnodbIndexErrLine.take 14)) = true) ∧
    MPCComment.from_string tnodbIndexErrLine = .error .indexError := by
  refine ⟨⟨by decide, by decide⟩, by decide⟩

/-- C5 amended: whenever `TNOdbComment.from_string` itself succeeds, the
dispatcher returns exactly its result (the database-internal variant is
tried first, so lower-priority variants and the fallback never see the
string). -/
theorem C5_priority_tnodb_first (line : Str) (v : CommentVal)
    (h : TNOdbComment.from_string line = .ok v) :
    MPCComment.from_string line = .ok v := by
  rw [MPCComment.from_string, h]

/-- Witness for C5 amended at `tnodbOkLine`. -/
theorem C5_priority_tnodb_first_witness :
    MPCComment.from_string tnodbOkLine = .ok (.tnodb tnodbOkVal) :=
  C5_priority_tnodb_first tnodbOkLine (.tnodb tnodbOkVal) (by decide)

/-- C9 counterexample: the spec's scenario line, taken verbatim, is
misaligned — its discovery column (column 13) holds `'A'`, so
`Observation.from_string` raises `MPCFieldFormatError` from the
`Discovery` setter instead of yielding a record. -/
theorem C9_scenario_counterexample :
    Observation.from_string scenarioLine = .error .mpcFieldFormat := by decide

/-- C9 amended: the scenario line re-aligned to the §6 layout (name in
columns 6–12, `*` in column 13, note1 `A`, note2 `C`) parses to a record
with `provisional_name = "K13T01"`, an initial discovery, note codes `A`
and `C`, and observatory code `"568"`. -/
theorem C9_scenario_aligned :
    Observation.from_string scenarioLineAligned = .ok (.obs scenarioRecord) ∧
    scenarioRecord.provisional_name = ['K', '1', '3', 'T', '0', '1'] ∧
    scenarioRecord.discovery.is_initial = true ∧
    scenarioRecord.note1.code = ['A'] ∧
    scenarioRecord.note2.code = ['C'] ∧
    scenarioRecord.observatory_code = ['5', '6', '8'] := by
  refine ⟨by decide, rfl, rfl, rfl, rfl, rfl⟩

end MPC

namespace MPC

/-! ## Writer lemmas -/

theorem countStar_append (l1 l2 : List EmitLine) :
    countStar (l1 ++ l2) = countStar l1 + countStar l2 := by
  simp [countStar, List.filter_append]

theorem mem_alInsert {κ α : Type} [DecidableEq κ] (l : List (κ × α)) (k : κ) (v : α)
    (p : κ × α) (h : p ∈ alInsert l k v) : p = (k, v) ∨ p ∈ l := by
  induction l with
  | nil =>
    simp only [alInsert, List.mem_singleton] at h
    exact Or.inl h
  | cons q t ih =>
    simp only [alInsert] at h
    split at h
    · rcases List.mem_cons.1 h with h' | h'
      · exact Or.inl h'
      · exact Or.inr (List.mem_cons_of_mem _ h')
    · rcases List.mem_cons.1 h with h' | h'
      · exact Or.inr (h' ▸ List.mem_cons_self _ _)
      · rcases ih h' with h'' | h''
        · exact Or.inl h''
        · exact Or.inr (List.mem_cons_of_mem _ h'')

theorem mem_insertSorted (p q : ℚ × WObs) (l : List (ℚ × WObs))
    (h : p ∈ insertSorted q l) : p = q ∨ p ∈ l := by
  induction l with
  | nil =>
    simp only [insertSorted, List.mem_singleton] at h
    exact Or.inl h
  | cons r t ih =>
    simp only [insertSorted] at h
    split at h
    · rcases List.mem_cons.1 h with h' | h'
      · exact Or.inl h'
      · exact Or.inr h'
    · rcases List.mem_cons.1 h with h' | h'
      · exact Or.inr (h' ▸ List.mem_cons_self _ _)
      · rcases ih h' with h'' | h''
        · exact Or.inl h''
        · exact Or.inr (List.mem_cons_of_mem _ h'')

theorem mem_sortByKey (p : ℚ × WObs) (l : List (ℚ × WObs))
    (h : p ∈ sortByKey l) : p ∈ l := by
  induction l with
  | nil => simp only [sortByKey] at h; exact absurd h (List.not_mem_nil p)
  | cons q t ih =>
    simp only [sortByKey] at h
    rcases mem_insertSorted p q (sortByKey t) h with h' | h'
    · exact h' ▸ List.mem_cons_self _ _
    · exact List.mem_cons_of_mem _ (ih h')

end MPC

namespace MPC

theorem discWF_autoMark (s : WriterState) (o : WObs) (ho : discWF o.disc) :
    discWF (autoMark s o).disc := by
  unfold autoMark
  split
  · intro _
    rfl
  · exact ho

theorem discWF_downgrade (s : WriterState) (o1 : WObs) (ho : discWF o1.disc) :
    discWF (downgrade s o1).disc := by
  unfold downgrade
  split
  · intro h
    simp at h
  · exact ho

theorem autoMark_disc_of_dw (s : WriterState) (o : WObs)
    (h : s.discovery_written = true) : autoMark s o = o := by
  unfold autoMark
  rw [if_neg]
  rintro ⟨-, -, hc⟩
  rw [h] at hc
  exact hc rfl

theorem countStar_mkEmit_le (o : WObs) : countStar [mkEmit o] ≤ 1 := by
  simp only [countStar, mkEmit, List.filter]
  split <;> simp

theorem countStar_mkEmit_of_not_initial (o : WObs) (h : o.disc.is_initial = false) :
    countStar [mkEmit o] = 0 := by
  have : Discovery.render o.disc ≠ ['*'] := by
    unfold Discovery.render
    rw [h]
    simp only [Bool.false_eq_true, if_false]
    split <;> simp
  simp only [countStar, mkEmit, List.filter]
  split
  · next hc =>
    simp only [decide_eq_true_eq] at hc
    exact absurd hc this
  · rfl

theorem mkEmit_marker_of_disc (o : WObs) (h : o.disc.is_disc = true) :
    (mkEmit o).marker = ['*'] ∨ (mkEmit o).marker = ['&'] := by
  by_cases hi : o.disc.is_initial = true
  · left
    simp [mkEmit, Discovery.render, hi]
  · right
    simp [mkEmit, Discovery.render, hi, h]

/-- When a discovery line has already been written, the record about to
be emitted never renders `*` (the downgrade clears the initial flag; an
unmarked well-formed record has it clear already). -/
theorem downgrade_not_initial (s : WriterState) (o1 : WObs)
    (hwf : discWF o1.disc) (hdw : s.discovery_written = true) :
    (downgrade s o1).disc.is_initial = false := by
  unfold downgrade
  by_cases hd : o1.disc.is_disc = true
  · rw [if_pos (show o1.disc.is_disc = true ∧ s.discovery_written = true from ⟨hd, hdw⟩)]
  · rw [if_neg (show ¬(o1.disc.is_disc = true ∧ s.discovery_written = true) from
      fun hc => hd hc.1)]
    by_contra hcon
    have := hwf (by simpa using hcon)
    exact hd this

/-- `_flush_observation` preserves the discovery invariant when the
incoming record is well-formed. -/
theorem WInv_flushObservation {s : WriterState} {o : WObs}
    (hs : WInv s) (ho : discWF o.disc) : WInv (flushObservation s o) := by
  obtain ⟨h1, h2, h3, h4⟩ := hs
  have hwf1 : discWF (autoMark s o).disc := discWF_autoMark s o ho
  have hwf2 : discWF (downgrade s (autoMark s o)).disc := discWF_downgrade _ _ hwf1
  simp only [flushObservation]
  set o1 := autoMark s o with ho1
  set o2 := downgrade s o1 with ho2
  set dw := (if o1.disc.is_disc = true then true else s.discovery_written) with hdw
  have hbuf : ∀ p ∈ alInsert s.buffer (mjdOf o2.jd) o2, discWF (Prod.snd p).disc := by
    intro p hp
    rcases mem_alInsert _ _ _ _ hp with h' | h'
    · rw [h']
      exact hwf2
    · exact h4 p h'
  split
  · refine ⟨fun h => h1 ?_, h2, h3, hbuf⟩
    simp only at h
    rw [hdw] at h
    split at h
    · exact absurd h (by simp)
    · exact h
  · refine ⟨?_, ?_, ?_, hbuf⟩
    · intro h
      simp only at h
      have hnd : o1.disc.is_disc = false := by
        rw [hdw] at h
        split at h
        · exact absurd h (by simp)
        · next hc => simpa using hc
      have hsd : s.discovery_written = false := by
        rw [hdw] at h
        split at h
        · exact absurd h (by simp)
        · exact h
      rw [countStar_append, h1 hsd]
      have hini : o2.disc.is_initial = false := by
        rw [ho2]
        unfold downgrade
        rw [if_neg (by rintro ⟨hc, -⟩; rw [hc] at hnd; exact absurd hnd (by simp))]
        by_contra hcon
        have := hwf1 (by simpa using hcon)
        rw [this] at hnd
        exact absurd hnd (by simp)
      rw [countStar_mkEmit_of_not_initial o2 hini]
    · rw [countStar_append]
      by_cases hsd : s.discovery_written = true
      · have := countStar_mkEmit_of_not_initial o2
          (by rw [ho2]; exact downgrade_not_initial s o1 hwf1 hsd)
        omega
      · have h0 := h1 (by simpa using hsd)
        have := countStar_mkEmit_le o2
        omega
    · intro e he hdm
      rcases List.mem_append.1 he with h' | h'
      · exact h3 e h' hdm
      · simp only [List.mem_singleton] at h'
        subst h'
        exact mkEmit_marker_of_disc o2 (by simpa [mkEmit] using hdm)

end MPC

namespace MPC

theorem WInv_foldFlush (l : List (ℚ × WObs)) :
    ∀ s : WriterState, WInv s → (∀ p ∈ l, discWF (Prod.snd p).disc) →
      WInv (l.foldl (fun a p => flushObservation a p.2) s) := by
  induction l with
  | nil => intro s hs _; exact hs
  | cons q t ih =>
    intro s hs hl
    exact ih _ (WInv_flushObservation hs (hl q (List.mem_cons_self _ _)))
      (fun p hp => hl p (List.mem_cons_of_mem _ hp))

theorem WInv_flush {s : WriterState} (hs : WInv s) : WInv (MPCWriter.flush s) := by
  rw [MPCWriter.flush]
  exact WInv_foldFlush _ s hs
    (fun p hp => hs.2.2.2 p (mem_sortByKey p _ hp))

theorem WInv_write {s : WriterState} {o : WObs} (hs : WInv s) (ho : discWF o.disc) :
    WInv (MPCWriter.write s o) := by
  rw [MPCWriter.write]
  have hmid : WInv { s with buffer := alInsert s.buffer (mjdOf o.jd) o } := by
    refine ⟨hs.1, hs.2.1, hs.2.2.1, ?_⟩
    intro p hp
    rcases mem_alInsert _ _ _ _ hp with h' | h'
    · rw [h']
      exact ho
    · exact hs.2.2.2 p h'
  split
  · exact WInv_flush hmid
  · exact hmid

theorem WInv_runWriter (cmds : List WCmd) :
    ∀ s : WriterState, WInv s →
      (∀ o : WObs, WCmd.write o ∈ cmds → discWF o.disc) →
      WInv (runWriter s cmds) := by
  induction cmds with
  | nil => intro s hs _; exact hs
  | cons c t ih =>
    intro s hs hc
    cases c with
    | write o =>
      exact ih _ (WInv_write hs (hc o (List.mem_cons_self _ _)))
        (fun o' ho' => hc o' (List.mem_cons_of_mem _ ho'))
    | flush =>
      exact ih _ (WInv_flush hs) (fun o' ho' => hc o' (List.mem_cons_of_mem _ ho'))

/-- `_flush_observation` preserves the deduplication invariant. -/
theorem DInv_flushObservation {s : WriterState} {o : WObs} (hs : DInv s) :
    DInv (flushObservation s o) := by
  obtain ⟨h1, h2⟩ := hs
  simp only [flushObservation]
  split
  · exact ⟨h1, h2⟩
  · next hnw =>
    constructor
    · rw [List.map_append]
      rw [List.nodup_append]
      refine ⟨h1, by simp, ?_⟩
      intro a ha hb
      simp only [List.map_cons, List.map_nil, List.mem_singleton, mkEmit] at hb
      rcases List.mem_map.1 ha with ⟨e, he, hEq⟩
      apply hnw
      rw [← hb, ← hEq]
      exact h2 e he
    · intro e he
      rcases List.mem_append.1 he with h' | h'
      · exact List.mem_append_left _ (h2 e h')
      · simp only [List.mem_singleton] at h'
        subst h'
        exact List.mem_append_right _ (by simp [mkEmit])

theorem DInv_foldFlush (l : List (ℚ × WObs)) :
    ∀ s : WriterState, DInv s → DInv (l.foldl (fun a p => flushObservation a p.2) s) := by
  induction l with
  | nil => intro s hs; exact hs
  | cons q t ih => intro s hs; exact ih _ (DInv_flushObservation hs)

theorem DInv_flush {s : WriterState} (hs : DInv s) : DInv (MPCWriter.flush s) := by
  rw [MPCWriter.flush]
  exact DInv_foldFlush _ s hs

theorem DInv_write {s : WriterState} {o : WObs} (hs : DInv s) :
    DInv (MPCWriter.write s o) := by
  rw [MPCWriter.write]
  have hmid : DInv { s with buffer := alInsert s.buffer (mjdOf o.jd) o } := ⟨hs.1, hs.2⟩
  split
  · exact DInv_flush hmid
  · exact hmid

theorem DInv_runWriter (cmds : List WCmd) :
    ∀ s : WriterState, DInv s → DInv (runWriter s cmds) := by
  induction cmds with
  | nil => intro s hs; exact hs
  | cons c t ih =>
    intro s hs
    cases c with
    | write o => exact ih _ (DInv_write hs)
    | flush => exact ih _ (DInv_flush hs)

end MPC

namespace MPC

unseal Rat.add Rat.sub Rat.mul Rat.inv

theorem countStar_cons (e : EmitLine) (l : List EmitLine) :
    countStar (e :: l) = countStar [e] + countStar l := by
  by_cases h : e.marker = ['*']
  · simp [countStar, List.filter_cons, h]
    omega
  · simp [countStar, List.filter_cons, h]

/-- C1 counterexample: with `auto_discovery` enabled, a *null*
observation that was pre-marked as an initial discovery is emitted
rendering `*` (the writer records the discovery as written without
checking the null flag of already-marked records), so the one `*` line
is not the earliest non-null record of the output. -/
theorem C1_star_counterexample :
    countStar (runWriter (MPCWriter.init true true)
      [.write recNullStar, .write recPlain]).output = 1 ∧
    ¬ starLineIsEarliestNonNull (runWriter (MPCWriter.init true true)
      [.write recNullStar, .write recPlain]).output := by
  constructor
  · decide
  · decide

/-- C1 amended: across any command sequence on a fresh writer with
`auto_discovery` enabled (records well-formed: the initial flag implies
the discovery flag, as every record built through the `Observation` API
is), at most one emitted line renders `*`; every discovery-marked
emission renders `*` or `&`; and any discovery-marked record emitted
after the `*` line renders `&` — but the `*` line itself may be a null
observation that was pre-marked as a discovery, rather than the
earliest non-null record. -/
theorem C1_at_most_one_star (auto_flush : Bool) (cmds : List WCmd)
    (h : ∀ o : WObs, WCmd.write o ∈ cmds → discWF o.disc) :
    countStar (runWriter (MPCWriter.init auto_flush true) cmds).output ≤ 1 ∧
    (∀ e ∈ (runWriter (MPCWriter.init auto_flush true) cmds).output,
      e.discMarked = true → e.marker = ['*'] ∨ e.marker = ['&']) ∧
    (∀ (l1 : List EmitLine) (e1 : EmitLine) (l2 : List EmitLine) (e2 : EmitLine)
        (l3 : List EmitLine),
      (runWriter (MPCWriter.init auto_flush true) cmds).output
          = l1 ++ e1 :: l2 ++ e2 :: l3 →
      e1.marker = ['*'] → e2.discMarked = true → e2.marker = ['&']) := by
  have hinit : WInv (MPCWriter.init auto_flush true) := by
    refine ⟨fun _ => rfl, ?_, ?_, ?_⟩
    · simp [MPCWriter.init, countStar]
    · intro e he
      simp [MPCWriter.init] at he
    · intro p hp
      simp [MPCWriter.init] at hp
  have hw := WInv_runWriter cmds _ hinit h
  obtain ⟨-, hle, hmk, -⟩ := hw
  refine ⟨hle, hmk, ?_⟩
  intro l1 e1 l2 e2 l3 hsplit h1 h2
  have hmem : e2 ∈ (runWriter (MPCWriter.init auto_flush true) cmds).output := by
    rw [hsplit]
    simp
  rcases hmk e2 hmem h2 with hstar | hamp
  · exfalso
    rw [hsplit, countStar_append, countStar_cons, countStar_append, countStar_cons] at hle
    have c1 : countStar [e1] = 1 := by simp [countStar, h1]
    have c2 : countStar [e2] = 1 := by simp [countStar, hstar]
    omega
  · exact hamp

/-- Witness for C1 amended: the counterexample run's records are
well-formed, and the bound holds on that run. -/
theorem C1_at_most_one_star_witness :
    countStar (runWriter (MPCWriter.init true true)
      [.write recNullStar, .write recPlain]).output ≤ 1 ∧
    (∀ e ∈ (runWriter (MPCWriter.init true true)
        [.write recNullStar, .write recPlain]).output,
      e.discMarked = true → e.marker = ['*'] ∨ e.marker = ['&']) ∧
    (∀ (l1 : List EmitLine) (e1 : EmitLine) (l2 : List EmitLine) (e2 : EmitLine)
        (l3 : List EmitLine),
      (runWriter (MPCWriter.init true true)
          [.write recNullStar, .write recPlain]).output = l1 ++ e1 :: l2 ++ e2 :: l3 →
      e1.marker = ['*'] → e2.discMarked = true → e2.marker = ['&']) :=
  C1_at_most_one_star true [.write recNullStar, .write recPlain]
    (by
      intro o ho
      simp only [List.mem_cons, List.not_mem_nil, or_false] at ho
      rcases ho with h | h
      · cases h
        intro hh
        rfl
      · cases h
        intro hh
        exact Bool.noConfusion hh)

/-- C3 counterexample: on a default writer (`auto_flush=True`), writing
two records with the same Julian Day and flushing emits exactly one line
for that day — but it is the *first* record written, not the most
recent one: the first `write` already flushed it, and the second is then
suppressed by the lifetime deduplication set. -/
theorem C3_first_write_wins_counterexample :
    (runWriter (MPCWriter.init true true)
      [.write recAlpha, .write recBeta, .flush]).output.map EmitLine.body = [['a']] ∧
    recBeta.body = ['b'] ∧ (['a'] : Str) ≠ ['b'] := by
  refine ⟨by decide, rfl, by decide⟩

/-- C3 amended: with `auto_flush` disabled, writing two records with the
same time key and then flushing emits exactly one line for that key,
namely the most recently written record; and over any command sequence
on any writer, each Julian Day is emitted at most once (the emitted day
keys are pairwise distinct), because emission is guarded by the
persistent written-day set.  With `auto_flush` enabled the one emitted
line is instead the first record written for that day. -/
theorem C3_last_write_wins_and_dedup (ad : Bool) (a b : WObs) (hk : a.jd = b.jd) :
    ((runWriter (MPCWriter.init false ad) [.write a, .write b, .flush]).output.map
      (fun e => (e.jd, e.body))) = [(b.jd, b.body)] ∧
    (∀ (auto_flush auto_discovery : Bool) (cmds : List WCmd),
      ((runWriter (MPCWriter.init auto_flush auto_discovery) cmds).output.map
        EmitLine.jd).Nodup) := by
  constructor
  · have hmjd : mjdOf a.jd = mjdOf b.jd := by rw [hk]
    simp only [runWriter, MPCWriter.write, MPCWriter.init, alInsert, hmjd, if_pos,
      ite_true, ite_false, if_neg, Bool.false_eq_true, if_true, if_false]
    simp only [MPCWriter.flush, sortByKey, insertSorted, List.foldl]
    simp only [flushObservation, autoMark, downgrade, mkEmit]
    split_ifs <;> simp_all
  · intro af adisc cmds
    have hinit : DInv (MPCWriter.init af adisc) := by
      constructor
      · simp [MPCWriter.init]
      · intro e he
        simp [MPCWriter.init] at he
    exact (DInv_runWriter cmds _ hinit).1

/-- Witness for C3 amended at two concrete same-day records. -/
theorem C3_last_write_wins_witness :
    ((runWriter (MPCWriter.init false true)
        [.write recAlpha, .write recBeta, .flush]).output.map
      (fun e => (e.jd, e.body))) = [(recBeta.jd, recBeta.body)] ∧
    (∀ (auto_flush auto_discovery : Bool) (cmds : List WCmd),
      ((runWriter (MPCWriter.init auto_flush auto_discovery) cmds).output.map
        EmitLine.jd).Nodup) :=
  C3_last_write_wins_and_dedup true recAlpha recBeta rfl

end MPC

namespace MPC

theorem alLookup_alInsert_self {κ α : Type} [DecidableEq κ] (l : List (κ × α)) (k : κ) (v : α) :
    alLookup (alInsert l k v) k = some v := by
  induction l with
  | nil => simp [alInsert, alLookup]
  | cons p t ih =>
    obtain ⟨a, b⟩ := p
    simp only [alInsert]
    by_cases h : a = k
    · rw [if_pos h]
      simp [alLookup]
    · rw [if_neg h]
      simp only [alLookup]
      rw [if_neg h]
      exact ih

theorem alLookup_alInsert_ne {κ α : Type} [DecidableEq κ] (l : List (κ × α)) {k k' : κ}
    (v : α) (h : k' ≠ k) : alLookup (alInsert l k v) k' = alLookup l k' := by
  induction l with
  | nil =>
    simp only [alInsert, alLookup]
    rw [if_neg (fun hh => h hh.symm)]
  | cons p t ih =>
    obtain ⟨a, b⟩ := p
    simp only [alInsert]
    by_cases ha : a = k
    · subst ha
      rw [if_pos rfl]
      simp only [alLookup]
      rw [if_neg (fun hh => h hh.symm), if_neg (fun hh => h hh.symm)]
    · rw [if_neg ha]
      simp only [alLookup]
      by_cases hk : a = k'
      · rw [if_pos hk, if_pos hk]
      · rw [if_neg hk, if_neg hk]
        exact ih

theorem index_fold_wf (master : Str) (cs : List Str) :
    ∀ st : Index, IndexWF st →
      (∃ g, alLookup st.index master = some g ∧ g.head? = some master) →
      IndexWF (cs.foldl (Index.addAlias master) st) ∧
      ∃ g, alLookup (cs.foldl (Index.addAlias master) st).index master = some g ∧
        g.head? = some master := by
  induction cs with
  | nil =>
    intro st h hm
    exact ⟨h, hm⟩
  | cons c t ih =>
    intro st h hm
    obtain ⟨g0, hg0, hh0⟩ := hm
    have hcons : ∃ tl, g0 = master :: tl := by
      cases g0 with
      | nil => exact absurd hh0 (by simp)
      | cons a tl =>
        refine ⟨tl, ?_⟩
        have ha : a = master := by simpa using hh0
        rw [ha]
    obtain ⟨tl, rfl⟩ := hcons
    have hnew : (alLookup st.index master).getD [] ++ [pyStrip c]
        = master :: (tl ++ [pyStrip c]) := by
      rw [hg0]
      rfl
    rw [List.foldl_cons]
    apply ih
    · intro name m hl
      simp only [Index.addAlias] at hl ⊢
      by_cases hn : name = pyStrip c
      · subst hn
        rw [alLookup_alInsert_self] at hl
        injection hl with hm2
        rw [← hm2]
        refine ⟨master :: (tl ++ [pyStrip c]), ?_, rfl⟩
        rw [hnew, alLookup_alInsert_self]
      · rw [alLookup_alInsert_ne _ _ hn] at hl
        by_cases hm' : m = master
        · rw [hm']
          refine ⟨master :: (tl ++ [pyStrip c]), ?_, rfl⟩
          rw [hnew, alLookup_alInsert_self]
        · obtain ⟨g, hg, hh⟩ := h name m hl
          refine ⟨g, ?_, hh⟩
          rw [alLookup_alInsert_ne _ _ hm']
          exact hg
    · refine ⟨master :: (tl ++ [pyStrip c]), ?_, rfl⟩
      simp only [Index.addAlias]
      rw [hnew, alLookup_alInsert_self]

theorem indexWF_addLine {idx : Index} (h : IndexWF idx) (line : Str) :
    IndexWF (Index.addLine idx line) := by
  simp only [Index.addLine]
  refine (index_fold_wf (pyStrip (line.take 10)) (chunks10 (line.drop 10)) _ ?_ ?_).1
  · intro name m hl
    simp only at hl ⊢
    by_cases hn : name = pyStrip (line.take 10)
    · subst hn
      rw [alLookup_alInsert_self] at hl
      injection hl with hm2
      rw [← hm2]
      refine ⟨[pyStrip (line.take 10)], ?_, rfl⟩
      rw [alLookup_alInsert_self]
    · rw [alLookup_alInsert_ne _ _ hn] at hl
      by_cases hm' : m = pyStrip (line.take 10)
      · rw [hm']
        refine ⟨[pyStrip (line.take 10)], ?_, rfl⟩
        rw [alLookup_alInsert_self]
      · obtain ⟨g, hg, hh⟩ := h name m hl
        refine ⟨g, ?_, hh⟩
        rw [alLookup_alInsert_ne _ _ hm']
        exact hg
  · refine ⟨[pyStrip (line.take 10)], ?_, rfl⟩
    simp only
    rw [alLookup_alInsert_self]

theorem indexWF_foldLines : ∀ (ls : List Str) (st : Index), IndexWF st →
    IndexWF (ls.foldl Index.addLine st)
  | [], _, h => h
  | l :: t, st, h => indexWF_foldLines t (Index.addLine st l) (indexWF_addLine h l)

theorem indexWF_build (lines : List Str) : IndexWF (Index.build lines) := by
  rw [Index.build]
  apply indexWF_foldLines
  intro name m hl
  simp [alLookup] at hl

/-- C8 counterexample: for a name not in the index, `get_aliases`
returns the bare *string* (not a single-element list), and Python `in`
on a string is substring containment — so `is_same` holds between an
unknown name and any substring of it, which alias-group membership in a
single-element group would reject. -/
theorem C8_substring_counterexample :
    (Index.build []).get_aliases ['a', 'b'] = .str ['a', 'b'] ∧
    (Index.build []).is_same ['a', 'b'] ['b'] = true ∧
    List.contains [['a', 'b']] ['b'] = false := by
  refine ⟨rfl, rfl, ?_⟩
  decide

/-- C8 amended: for every name known to an index built from index-file
lines, `get_aliases` returns the alias group of the name's canonical
master, with the canonical name first, and `is_same` is membership in
that group.  For a name not in the index, `get_aliases` returns the bare
name as a *string*, and `is_same` is substring containment on that
string rather than single-element group membership. -/
theorem C8_alias_groups (lines : List Str) (name : Str) :
    (∀ master, alLookup (Index.build lines).names name = some master →
      ∃ g, (Index.build lines).get_aliases name = .list g ∧
        alLookup (Index.build lines).index master = some g ∧
        g.head? = some master ∧
        ∀ b, (Index.build lines).is_same name b = g.contains b) ∧
    (alLookup (Index.build lines).names name = Option.none →
      (Index.build lines).get_aliases name = .str name ∧
      ∀ b, (Index.build lines).is_same name b = strSub b name) := by
  constructor
  · intro master hm
    obtain ⟨g, hg, hh⟩ := indexWF_build lines name master hm
    have hga : (Index.build lines).get_aliases name = .list g := by
      simp only [Index.get_aliases]
      rw [hm]
      simp [hg]
    refine ⟨g, hga, hg, hh, ?_⟩
    intro b
    rw [Index.is_same, hga]
    rfl
  · intro hnone
    have hga : (Index.build lines).get_aliases name = .str name := by
      simp only [Index.get_aliases]
      rw [hnone]
    refine ⟨hga, ?_⟩
    intro b
    rw [Index.is_same, hga]
    rfl

/-- Witness for C8 amended: the index built from the single line
`"A         X"` knows the alias `X`; its group is `[A, X]` with the
canonical name `A` first. -/
theorem C8_alias_groups_witness :
    ∃ g, (Index.build [idxLine1]).get_aliases ['X'] = .list g ∧
      alLookup (Index.build [idxLine1]).index ['A'] = some g ∧
      g.head? = some ['A'] ∧
      ∀ b, (Index.build [idxLine1]).is_same ['X'] b = g.contains b :=
  (C8_alias_groups [idxLine1] ['X']).1 ['A'] (by decide)

end MPC

namespace MPC

unseal Rat.add Rat.sub Rat.mul Rat.inv

/-- C6 counterexample: the inline comment is taken from `line[81:]`, so
the character at index 80 (the 81st column) is silently discarded — it
is neither part of the 80-column core nor of the comment.  On an
82-character line ending in `Xc`, the attached comment parses from
`"c"` alone, not from `"Xc"`. -/
theorem C6_column81_counterexample :
    Observation.from_string (scenarioLineAligned ++ ['X', 'c'])
      = .ok (.obs { scenarioRecord with comment := .str ['c'] }) ∧
    (scenarioLineAligned ++ ['X', 'c']).drop 80 = ['X', 'c'] ∧
    MPCComment.from_string ['X', 'c'] = .ok (.str ['X', 'c']) := by
  refine ⟨by decide, by decide, by decide⟩

/-- C6 amended: for a newline-stripped line that does not begin with
`#`, a line shorter than 80 columns yields "no record" rather than
raising; and the parse result depends only on the first 80 columns and
on the text from index 81 on — the comment is `line[81:]`, so the
character at index 80 is discarded rather than being part of the
inline comment. -/
theorem C6_fixed_boundary (input_line : Str)
    (h1 : (stripOn ['\n'] input_line).head? ≠ some '#') :
    ((stripOn ['\n'] input_line).length < 80 →
      Observation.from_string input_line = .ok .noRecord) ∧
    (∀ other : Str, (stripOn ['\n'] other).head? ≠ some '#' →
      (stripOn ['\n'] other).take 80 = (stripOn ['\n'] input_line).take 80 →
      (stripOn ['\n'] other).drop 81 = (stripOn ['\n'] input_line).drop 81 →
      Observation.from_string other = Observation.from_string input_line) := by
  constructor
  · intro hlen
    rw [Observation.from_string]
    rw [if_neg h1]
    have hc : ((stripOn ['\n'] input_line).take 80).length ≠ 80 := by
      rw [List.length_take]
      omega
    rw [if_pos hc]
    rfl
  · intro other h2 htake hdrop
    rw [Observation.from_string, Observation.from_string]
    rw [if_neg h2, if_neg h1, htake, hdrop]

/-- Witness for C6 amended: the 60-character database-internal line is
shorter than 80 columns and parses to "no record". -/
theorem C6_fixed_boundary_witness :
    Observation.from_string tnodbOkLine = .ok .noRecord :=
  (C6_fixed_boundary tnodbOkLine (by decide)).1 (by decide)

end MPC

namespace MPC

unseal Rat.add Rat.sub Rat.mul Rat.inv

/-- C2 counterexample: the scenario record parses with `mag = 20.63`
but captured magnitude precision `min(1, 2) = 1`; re-rendering formats
the magnitude as `20.6`, so the re-parsed record differs from the
original in its magnitude (`20.6 ≠ 20.63`) — the round trip fails for
records whose magnitude carries more than one decimal. -/
theorem C2_roundtrip_counterexample :
    Observation.from_string scenarioLineAligned = .ok (.obs scenarioRecord) ∧
    (Observation.to_string scenarioRecord).bind Observation.from_string
      = .ok (.obs { scenarioRecord with mag := some (103 / 5) }) ∧
    ({ scenarioRecord with mag := some (103 / 5) } : Observation) ≠ scenarioRecord := by
  refine ⟨by decide, by decide, by decide⟩

end MPC

namespace MPC

unseal Rat.add Rat.sub Rat.mul Rat.inv

theorem length_dropWhile_le (p : Char → Bool) (l : List Char) :
    (l.dropWhile p).length ≤ l.length := by
  induction l with
  | nil => simp [List.dropWhile]
  | cons c t ih =>
    rw [List.dropWhile_cons]
    split
    · exact Nat.le_succ_of_le ih
    · exact Nat.le_refl _

theorem dropWhile_eq_self_of_length {p : Char → Bool} {l : List Char}
    (h : (l.dropWhile p).length = l.length) : l.dropWhile p = l := by
  induction l with
  | nil => simp [List.dropWhile]
  | cons c t ih =>
    rw [List.dropWhile_cons] at h ⊢
    split at h
    · have hle := length_dropWhile_le p t
      rw [List.length_cons] at h
      omega
    · rw [if_neg (by assumption)]

theorem lstripOn_cons_not_mem {chars : List Char} {c : Char} (t : Str)
    (h : chars.contains c = false) : lstripOn chars (c :: t) = c :: t := by
  rw [lstripOn, List.dropWhile_cons, if_neg]
  rw [h]
  exact Bool.false_ne_true

theorem lstripOn_eq_self_of_strip {chars : List Char} {s : Str}
    (h : stripOn chars s = s) : lstripOn chars s = s := by
  have h1 : (lstripOn chars s).length ≤ s.length := length_dropWhile_le _ s
  have h2 : (stripOn chars s).length ≤ (lstripOn chars s).length := by
    rw [stripOn, rstripOn, List.length_reverse]
    calc (lstripOn chars (lstripOn chars s).reverse).length
        ≤ (lstripOn chars s).reverse.length := length_dropWhile_le _ _
      _ = (lstripOn chars s).length := List.length_reverse _
  rw [h] at h2
  exact dropWhile_eq_self_of_length (Nat.le_antisymm h1 h2)

theorem rstripOn_eq_self_of_strip {chars : List Char} {s : Str}
    (h : stripOn chars s = s) : rstripOn chars s = s := by
  have hl := lstripOn_eq_self_of_strip h
  rw [stripOn, hl] at h
  exact h

theorem head_not_mem_of_lstrip {chars : List Char} {c : Char} {t : Str}
    (h : lstripOn chars (c :: t) = c :: t) : chars.contains c = false := by
  by_contra hc
  rw [Bool.not_eq_false] at hc
  rw [lstripOn, List.dropWhile_cons, if_pos hc] at h
  have hle := length_dropWhile_le (fun x => chars.contains x) t
  rw [h] at hle
  rw [List.length_cons] at hle
  omega

theorem stripOn_eq_self {chars : List Char} {s : Str}
    (h1 : ∀ c, s.head? = some c → chars.contains c = false)
    (h2 : ∀ c, s.getLast? = some c → chars.contains c = false) :
    stripOn chars s = s := by
  cases s with
  | nil => rfl
  | cons a t =>
    have hl : lstripOn chars (a :: t) = a :: t := lstripOn_cons_not_mem _ (h1 a rfl)
    rw [stripOn, hl, rstripOn]
    cases hr : (a :: t).reverse with
    | nil => simp at hr
    | cons b u =>
      have hb : (a :: t).getLast? = some b := by
        rw [← List.head?_reverse, hr]
        rfl
      rw [lstripOn_cons_not_mem _ (h2 b hb)]
      exact hr ▸ List.reverse_reverse (a :: t)

theorem lstripOn_replicate_append {chars : List Char} {c : Char}
    (h : chars.contains c = true) (n : ℕ) (s : Str) :
    lstripOn chars (List.replicate n c ++ s) = lstripOn chars s := by
  induction n with
  | zero => rw [List.replicate_zero, List.nil_append]
  | succ k ih =>
    rw [List.replicate_succ, List.cons_append, lstripOn, List.dropWhile_cons, if_pos h]
    exact ih

theorem rstripOn_append_replicate {chars : List Char} {c : Char}
    (h : chars.contains c = true) (n : ℕ) (s : Str) :
    rstripOn chars (s ++ List.replicate n c) = rstripOn chars s := by
  rw [rstripOn, rstripOn, List.reverse_append, List.reverse_replicate,
      lstripOn_replicate_append h]

theorem pyStrip_pad (a b : ℕ) {s : Str} (h : pyStrip s = s) :
    pyStrip (List.replicate a ' ' ++ s ++ List.replicate b ' ') = s := by
  have hsp : pyWhitespace.contains ' ' = true := by decide
  rw [pyStrip] at h ⊢
  rw [List.append_assoc, stripOn, lstripOn_replicate_append hsp]
  cases s with
  | nil =>
    rw [List.nil_append]
    rw [show lstripOn pyWhitespace (List.replicate b ' ')
          = lstripOn pyWhitespace (List.replicate b ' ' ++ []) by rw [List.append_nil],
        lstripOn_replicate_append hsp]
    rfl
  | cons x t =>
    have hl := lstripOn_eq_self_of_strip h
    have hx : pyWhitespace.contains x = false := head_not_mem_of_lstrip hl
    rw [List.cons_append, lstripOn_cons_not_mem _ hx, ← List.cons_append,
        rstripOn_append_replicate hsp]
    exact rstripOn_eq_self_of_strip h

theorem padRight_length_of_le {c : Char} {w : ℕ} {s : Str} (h : s.length ≤ w) :
    (padRight c w s).length = w := by
  rw [padRight, List.length_append, List.length_replicate]
  omega

theorem padRight_eq_self {c : Char} {w : ℕ} {s : Str} (h : w ≤ s.length) :
    padRight c w s = s := by
  rw [padRight, Nat.sub_eq_zero_of_le h, List.replicate_zero, List.append_nil]

theorem padLeft_eq_self {c : Char} {w : ℕ} {s : Str} (h : w ≤ s.length) :
    padLeft c w s = s := by
  rw [padLeft, Nat.sub_eq_zero_of_le h, List.replicate_zero, List.nil_append]

theorem padLeft_length_of_le {c : Char} {w : ℕ} {s : Str} (h : s.length ≤ w) :
    (padLeft c w s).length = w := by
  rw [padLeft, List.length_append, List.length_replicate]
  omega

theorem nullRender_eq (n : NullObservation) : NullObservation.render n
    = [if n.isNull then n.null_observation_character else ' '] := by
  rw [NullObservation.render]
  split <;> rfl

theorem nullRender_length (n : NullObservation) :
    (NullObservation.render n).length = 1 := by
  rw [nullRender_eq]
  rfl

theorem discRender_length (d : Discovery) : (Discovery.render d).length = 1 := by
  rw [Discovery.render]
  split
  · rfl
  · split
    · rfl
    · rfl

theorem take_app {n : ℕ} {a : Str} (r : Str) (h : a.length = n) :
    (a ++ r).take n = a := by
  rw [← h]
  exact List.take_left a r

theorem drop_app {n : ℕ} {a : Str} (r : Str) (h : a.length = n) :
    (a ++ r).drop n = r := by
  rw [← h]
  exact List.drop_left a r

end MPC


namespace MPC

unseal Rat.add Rat.sub Rat.mul Rat.inv

theorem magStrOf_length (o : Observation) (hmb : canonicalMagBand o = true) :
    (magStrOf o).length = 6 := by
  rcases hm : o.mag with _ | m <;> rcases hb : o.band with _ | b
  · simp [magStrOf, hm, hb]
  · simp [magStrOf, hm, hb]
  · simp [magStrOf, hm, hb]
  · simp only [canonicalMagBand, hm, hb, Bool.and_eq_true, decide_eq_true_eq] at hmb
    obtain ⟨⟨⟨⟨h5, hb1⟩, hsm⟩, hsb⟩, hme⟩ := hmb
    simp only [magStrOf, hm, hb]
    rw [List.length_append, padRight_length_of_le h5, padRight_length_of_le (by omega)]

theorem slice11 {s1 s2 s3 s4 s5 s6 s7 s8 s9 s10 s11 : Str}
    (h1 : s1.length = 12) (h2 : s2.length = 1) (h3 : s3.length = 1)
    (h4 : s4.length = 1) (h5 : s5.length = 17) (h6 : s6.length = 12)
    (h7 : s7.length = 12) (h8 : s8.length = 9) (h9 : s9.length = 6)
    (h10 : s10.length = 6) (h11 : s11.length = 3) :
    unpackObs (s1 ++ (s2 ++ (s3 ++ (s4 ++ (s5 ++ (s6 ++ (s7 ++ (s8 ++ (s9 ++ (s10 ++ s11))))))))))
      = some ⟨s1.take 1, (s1.drop 1).take 11, s2, s3, s4, s5, s6, s7,
              s9.take 5, (s9.drop 5).take 1, s11⟩ := by
  set L := s1 ++ (s2 ++ (s3 ++ (s4 ++ (s5 ++ (s6 ++ (s7 ++ (s8 ++ (s9 ++ (s10 ++ s11)))))))))
    with hL
  have hlen : L.length = 80 := by
    rw [hL]
    simp only [List.length_append]
    omega
  have e12 : L.drop 12 = s2 ++ (s3 ++ (s4 ++ (s5 ++ (s6 ++ (s7 ++ (s8 ++ (s9 ++ (s10 ++ s11)))))))) := by
    rw [hL]
    exact drop_app _ h1
  have e13 : L.drop 13 = s3 ++ (s4 ++ (s5 ++ (s6 ++ (s7 ++ (s8 ++ (s9 ++ (s10 ++ s11))))))) := by
    rw [show (13 : ℕ) = 12 + 1 from rfl, ← List.drop_drop, e12]
    exact drop_app _ h2
  have e14 : L.drop 14 = s4 ++ (s5 ++ (s6 ++ (s7 ++ (s8 ++ (s9 ++ (s10 ++ s11)))))) := by
    rw [show (14 : ℕ) = 13 + 1 from rfl, ← List.drop_drop, e13]
    exact drop_app _ h3
  have e15 : L.drop 15 = s5 ++ (s6 ++ (s7 ++ (s8 ++ (s9 ++ (s10 ++ s11))))) := by
    rw [show (15 : ℕ) = 14 + 1 from rfl, ← List.drop_drop, e14]
    exact drop_app _ h4
  have e32 : L.drop 32 = s6 ++ (s7 ++ (s8 ++ (s9 ++ (s10 ++ s11)))) := by
    rw [show (32 : ℕ) = 15 + 17 from rfl, ← List.drop_drop, e15]
    exact drop_app _ h5
  have e44 : L.drop 44 = s7 ++ (s8 ++ (s9 ++ (s10 ++ s11))) := by
    rw [show (44 : ℕ) = 32 + 12 from rfl, ← List.drop_drop, e32]
    exact drop_app _ h6
  have e56 : L.drop 56 = s8 ++ (s9 ++ (s10 ++ s11)) := by
    rw [show (56 : ℕ) = 44 + 12 from rfl, ← List.drop_drop, e44]
    exact drop_app _ h7
  have e65 : L.drop 65 = s9 ++ (s10 ++ s11) := by
    rw [show (65 : ℕ) = 56 + 9 from rfl, ← List.drop_drop, e56]
    exact drop_app _ h8
  have e70 : L.drop 70 = s9.drop 5 ++ (s10 ++ s11) := by
    rw [show (70 : ℕ) = 65 + 5 from rfl, ← List.drop_drop, e65,
        List.drop_append_eq_append_drop, h9]
    norm_num
  have e77 : L.drop 77 = s11 := by
    rw [show (77 : ℕ) = 70 + 7 from rfl, ← List.drop_drop, e70,
        show (7 : ℕ) = 1 + 6 from rfl, ← List.drop_drop,
        drop_app _ (by rw [List.length_drop, h9])]
    exact drop_app _ h10
  have t0 : L.take 1 = s1.take 1 := by
    rw [hL, List.take_append_eq_append_take, show 1 - s1.length = 0 by omega,
        List.take_zero, List.append_nil]
  have t1 : (L.drop 1).take 11 = (s1.drop 1).take 11 := by
    rw [hL, List.drop_append_eq_append_drop, show 1 - s1.length = 0 by omega,
        List.drop_zero, List.take_append_eq_append_take,
        show 11 - (s1.drop 1).length = 0 by rw [List.length_drop]; omega,
        List.take_zero, List.append_nil]
  have t12 : (L.drop 12).take 1 = s2 := by
    rw [e12]
    exact take_app _ h2
  have t13 : (L.drop 13).take 1 = s3 := by
    rw [e13]
    exact take_app _ h3
  have t14 : (L.drop 14).take 1 = s4 := by
    rw [e14]
    exact take_app _ h4
  have t15 : (L.drop 15).take 17 = s5 := by
    rw [e15]
    exact take_app _ h5
  have t32 : (L.drop 32).take 12 = s6 := by
    rw [e32]
    exact take_app _ h6
  have t44 : (L.drop 44).take 12 = s7 := by
    rw [e44]
    exact take_app _ h7
  have t65 : (L.drop 65).take 5 = s9.take 5 := by
    rw [e65, List.take_append_eq_append_take, show 5 - s9.length = 0 by omega,
        List.take_zero, List.append_nil]
  have t70 : (L.drop 70).take 1 = (s9.drop 5).take 1 := by
    rw [e70, List.take_append_eq_append_take,
        show 1 - (s9.drop 5).length = 0 by rw [List.length_drop]; omega,
        List.take_zero, List.append_nil]
  have t77 : (L.drop 77).take 3 = s11 := by
    rw [e77]
    exact List.take_of_length_le (by omega)
  rw [unpackObs, if_pos hlen, t0, t1, t12, t13, t14, t15, t32, t44, t65, t70, t77]

end MPC

namespace MPC

unseal Rat.add Rat.sub Rat.mul Rat.inv

theorem except_bind_ok {ε α β : Type} (a : α) (f : α → Except ε β) :
    (Except.ok a >>= f) = f a := rfl

theorem render_canonical (o : Observation) (hmb : canonicalMagBand o = true) :
    Observation.render o = .ok (coreOf o) := by
  rcases hm : o.mag with _ | m <;> rcases hb : o.band with _ | b
  · simp only [Observation.render, hm, hb, coreOf, magStrOf]
    rfl
  · simp only [canonicalMagBand, hm, hb] at hmb
    simp at hmb
  · simp only [canonicalMagBand, hm, hb] at hmb
    simp at hmb
  · simp only [canonicalMagBand, hm, hb, Bool.and_eq_true, decide_eq_true_eq] at hmb
    obtain ⟨⟨⟨⟨h5, hb1⟩, hsm⟩, hsb⟩, hme⟩ := hmb
    simp only [Observation.render, hm, hb, coreOf, magStrOf]
    rw [except_bind_ok]
    rw [if_neg (by
      rw [List.length_append, padRight_length_of_le h5, padRight_length_of_le (by omega)]
      omega)]
    rfl

theorem coreOf_length (o : Observation)
    (h7 : o.provisional_name.length ≤ 7)
    (hn1 : o.note1.code.length ≤ 1) (hn2 : o.note2.code.length ≤ 1)
    (hdate : (timeMPCRender o.date o.date_precision).length ≤ 17)
    (hra : (renderSexagesimal o.coordRa o.ra_precision false).length ≤ 12)
    (hdec : (renderSexagesimal o.coordDec o.dec_precision true).length ≤ 12)
    (hmb : canonicalMagBand o = true)
    (hcode : o.observatory_code.length = 3) :
    (coreOf o).length = 80 := by
  have hinner : (NullObservation.render o.null_observation ++
      (if 7 < o.provisional_name.length then [] else List.replicate 4 ' ') ++
      o.provisional_name).length ≤ 12 := by
    rw [List.length_append, List.length_append, nullRender_length, if_neg (by omega)]
    simp only [List.length_replicate]
    omega
  rw [coreOf]
  simp only [List.length_append, List.length_replicate]
  rw [padRight_length_of_le hinner, discRender_length,
      padRight_length_of_le hn1, padRight_length_of_le hn2,
      padRight_length_of_le hdate, padRight_length_of_le hra,
      padRight_length_of_le hdec, magStrOf_length o hmb,
      padLeft_length_of_le (le_of_eq hcode)]

theorem slice11L {s1 s2 s3 s4 s5 s6 s7 s8 s9 s10 s11 : Str}
    (h1 : s1.length = 12) (h2 : s2.length = 1) (h3 : s3.length = 1)
    (h4 : s4.length = 1) (h5 : s5.length = 17) (h6 : s6.length = 12)
    (h7 : s7.length = 12) (h8 : s8.length = 9) (h9 : s9.length = 6)
    (h10 : s10.length = 6) (h11 : s11.length = 3) :
    unpackObs (s1 ++ s2 ++ s3 ++ s4 ++ s5 ++ s6 ++ s7 ++ s8 ++ s9 ++ s10 ++ s11)
      = some ⟨s1.take 1, (s1.drop 1).take 11, s2, s3, s4, s5, s6, s7,
              s9.take 5, (s9.drop 5).take 1, s11⟩ := by
  rw [show s1 ++ s2 ++ s3 ++ s4 ++ s5 ++ s6 ++ s7 ++ s8 ++ s9 ++ s10 ++ s11
        = s1 ++ (s2 ++ (s3 ++ (s4 ++ (s5 ++ (s6 ++ (s7 ++ (s8 ++ (s9 ++ (s10 ++ s11)))))))))
      from by simp only [List.append_assoc]]
  exact slice11 h1 h2 h3 h4 h5 h6 h7 h8 h9 h10 h11

theorem unpackObs_coreOf (o : Observation)
    (h7 : o.provisional_name.length ≤ 7)
    (hn1 : o.note1.code.length ≤ 1) (hn2 : o.note2.code.length ≤ 1)
    (hdate : (timeMPCRender o.date o.date_precision).length ≤ 17)
    (hra : (renderSexagesimal o.coordRa o.ra_precision false).length ≤ 12)
    (hdec : (renderSexagesimal o.coordDec o.dec_precision true).length ≤ 12)
    (hmb : canonicalMagBand o = true)
    (hcode : o.observatory_code.length = 3) :
    unpackObs (coreOf o)
      = some ⟨NullObservation.render o.null_observation,
              List.replicate 4 ' ' ++ (o.provisional_name ++
                List.replicate (7 - o.provisional_name.length) ' '),
              Discovery.render o.discovery,
              padRight ' ' 1 o.note1.code,
              padRight ' ' 1 o.note2.code,
              padRight ' ' 17 (timeMPCRender o.date o.date_precision),
              padRight ' ' 12 (renderSexagesimal o.coordRa o.ra_precision false),
              padRight ' ' 12 (renderSexagesimal o.coordDec o.dec_precision true),
              (magStrOf o).take 5,
              ((magStrOf o).drop 5).take 1,
              o.observatory_code⟩ := by
  have hif : (if 7 < o.provisional_name.length then ([] : Str) else List.replicate 4 ' ')
      = List.replicate 4 ' ' := if_neg (by omega)
  have hinner : (NullObservation.render o.null_observation ++
      List.replicate 4 ' ' ++ o.provisional_name).length ≤ 12 := by
    rw [List.length_append, List.length_append, nullRender_length]
    simp only [List.length_replicate]
    omega
  rw [coreOf, hif]
  rw [slice11L (padRight_length_of_le hinner) (discRender_length _)
      (padRight_length_of_le hn1) (padRight_length_of_le hn2)
      (padRight_length_of_le hdate) (padRight_length_of_le hra)
      (padRight_length_of_le hdec) (by simp) (magStrOf_length o hmb)
      (by simp) (padLeft_length_of_le (le_of_eq hcode))]
  have hshape : padRight ' ' 12 (NullObservation.render o.null_observation ++
        List.replicate 4 ' ' ++ o.provisional_name)
      = NullObservation.render o.null_observation ++
        (List.replicate 4 ' ' ++ (o.provisional_name ++
          List.replicate (7 - o.provisional_name.length) ' ')) := by
    rw [padRight]
    rw [show 12 - (NullObservation.render o.null_observation ++
          List.replicate 4 ' ' ++ o.provisional_name).length
        = 7 - o.provisional_name.length from by
      rw [List.length_append, List.length_append, nullRender_length,
          List.length_replicate]
      omega]
    simp only [List.append_assoc]
  rw [hshape, take_app _ (nullRender_length _), drop_app _ (nullRender_length _),
      List.take_of_length_le (by
        simp only [List.length_append, List.length_replicate]
        omega),
      padLeft_eq_self (le_of_eq hcode.symm)]

end MPC

namespace MPC

unseal Rat.add Rat.sub Rat.mul Rat.inv

theorem nullObs_roundtrip (n : NullObservation)
    (hch : n.null_observation_character = '!') :
    NullObservation.ofStr (NullObservation.render n) = n := by
  rw [nullRender_eq]
  rcases n with ⟨c, b⟩
  simp only at hch
  subst hch
  cases b
  · rfl
  · rfl

theorem setPlate_none_ok (c : OSSOSComment) :
    c.setPlateUncertainty PyArg.none = .ok { c with plate_uncertainty := 1 / 5 } := by
  simp only [OSSOSComment.setPlateUncertainty, pyFloat?, Option.getD]
  rw [if_pos (by norm_num)]

theorem setAstro_zero_ok (c : OSSOSComment) :
    c.setAstrometricLevel (.num 0) = .ok { c with astrometric_level := 0 } := by
  have h0 : pyInt (.num 0) = .ok 0 := by decide
  rw [OSSOSComment.setAstrometricLevel, h0, except_bind_ok]
  rw [if_pos (by norm_num)]
  rfl

theorem ossosInit_obs_ok (nm mc mf : Str) :
    ∃ c, OSSOSComment.init
      ⟨['O'], PyArg.none, .str nm, [], mc, PyArg.none, PyArg.none,
       PyArg.none, .num 0, .str mf, .num (-1), PyArg.none⟩ = .ok c := by
  simp only [OSSOSComment.init]
  rw [setPlate_none_ok, except_bind_ok, setAstro_zero_ok, except_bind_ok]
  exact ⟨_, rfl⟩

end MPC

namespace MPC

unseal Rat.add Rat.sub Rat.mul Rat.inv

theorem init_canonical (o : Observation)
    (hch : o.null_observation.null_observation_character = '!')
    (hstrip : pyStrip o.provisional_name = o.provisional_name)
    (hdisc : Discovery.mk? (.str (Discovery.render o.discovery)) = .ok o.discovery)
    (hnote1 : MPCNote.mk? (MPCNote.render o.note1) .note1 = .ok o.note1)
    (hnote2 : MPCNote.mk? (MPCNote.render o.note2) .note2 = .ok o.note2)
    (hdate : Observation.setDate (padRight ' ' 17 (timeMPCRender o.date o.date_precision))
      = .ok (o.date, o.date_precision))
    (hcoord : Observation.setCoordinate
        (padRight ' ' 12 (renderSexagesimal o.coordRa o.ra_precision false))
        (padRight ' ' 12 (renderSexagesimal o.coordDec o.dec_precision true))
      = .ok (o.coordRa, o.coordDec, o.ra_precision, o.dec_precision))
    (hmb : canonicalMagBand o = true)
    (hcode : o.observatory_code.length = 3) :
    ∃ c0, Observation.init
      ⟨NullObservation.render o.null_observation,
       List.replicate 4 ' ' ++ (o.provisional_name ++
         List.replicate (7 - o.provisional_name.length) ' '),
       Discovery.render o.discovery,
       padRight ' ' 1 o.note1.code,
       padRight ' ' 1 o.note2.code,
       padRight ' ' 17 (timeMPCRender o.date o.date_precision),
       padRight ' ' 12 (renderSexagesimal o.coordRa o.ra_precision false),
       padRight ' ' 12 (renderSexagesimal o.coordDec o.dec_precision true),
       (magStrOf o).take 5,
       ((magStrOf o).drop 5).take 1,
       o.observatory_code⟩
      = .ok { o with comment := .ossos c0 } := by
  have hname : pyStrip (List.replicate 4 ' ' ++ (o.provisional_name ++
      List.replicate (7 - o.provisional_name.length) ' ')) = o.provisional_name := by
    rw [← List.append_assoc]
    exact pyStrip_pad 4 _ hstrip
  have hn1 : MPCNote.mk? (padRight ' ' 1 o.note1.code) NoteType.note1 = .ok o.note1 := hnote1
  have hn2 : MPCNote.mk? (padRight ' ' 1 o.note2.code) NoteType.note2 = .ok o.note2 := hnote2
  have hobs : Observation.setObservatoryCode o.observatory_code = .ok o.observatory_code := by
    rw [Observation.setObservatoryCode, if_pos (by omega)]
  have hmag : Observation.setMag ((magStrOf o).take 5) = .ok (o.mag, o.mag_precision) ∧
      Observation.setBand (((magStrOf o).drop 5).take 1) = o.band := by
    rcases hm : o.mag with _ | m <;> rcases hb : o.band with _ | b <;>
        simp only [canonicalMagBand, hm, hb] at hmb
    · simp only [Bool.and_eq_true, decide_eq_true_eq] at hmb
      obtain ⟨hp0, hmerr⟩ := hmb
      constructor
      · rw [hp0, show (magStrOf o).take 5 = List.replicate 5 ' ' from by
          simp [magStrOf, hm, hb]]
        decide
      · rw [show ((magStrOf o).drop 5).take 1 = [' '] from by
          simp [magStrOf, hm, hb]]
        decide
    · simp at hmb
    · simp at hmb
    · simp only [Bool.and_eq_true, decide_eq_true_eq] at hmb
      obtain ⟨⟨⟨⟨h5, hb1⟩, hsm⟩, hsb⟩, hme⟩ := hmb
      have hms : magStrOf o = padRight ' ' 5 (formatF o.mag_precision m) ++ padRight ' ' 1 b := by
        simp [magStrOf, hm, hb]
      have hbp : padRight ' ' 1 b = b := padRight_eq_self (by omega)
      constructor
      · rw [hms, List.take_append_eq_append_take, padRight_length_of_le h5,
            show (5 : ℕ) - 5 = 0 from rfl, List.take_zero, List.append_nil,
            List.take_of_length_le (le_of_eq (padRight_length_of_le h5))]
        exact hsm
      · rw [hms, drop_app _ (padRight_length_of_le h5), hbp,
            List.take_of_length_le (by omega)]
        exact hsb
  have hme : (if (o.mag).isSome then some (-1 : ℚ) else Option.none) = o.mag_err := by
    rcases hm : o.mag with _ | m <;> rcases hb : o.band with _ | b <;>
        simp only [canonicalMagBand, hm, hb] at hmb
    · simp only [Bool.and_eq_true, decide_eq_true_eq] at hmb
      rw [hmb.2]
      rfl
    · simp at hmb
    · simp at hmb
    · simp only [Bool.and_eq_true, decide_eq_true_eq] at hmb
      rw [hmb.2]
      rfl
  obtain ⟨cW, hcW⟩ := ossosInit_obs_ok
    (List.replicate 4 ' ' ++ (o.provisional_name ++
      List.replicate (7 - o.provisional_name.length) ' '))
    o.note1.code ((magStrOf o).take 5)
  refine ⟨cW, ?_⟩
  simp only [Observation.init]
  rw [hdisc, except_bind_ok, hn1, except_bind_ok, hn2, except_bind_ok,
      hdate, except_bind_ok, hcoord, except_bind_ok,
      hmag.1, except_bind_ok, hobs, except_bind_ok]
  rw [hcW, except_bind_ok]
  rw [nullObs_roundtrip o.null_observation hch, hname, hmag.2, hme]
  rfl

end MPC

namespace MPC

unseal Rat.add Rat.sub Rat.mul Rat.inv

theorem coreOf_cons (o : Observation) : ∃ t : Str, coreOf o
    = (if o.null_observation.isNull then o.null_observation.null_observation_character
       else ' ') :: t := by
  rw [coreOf, padRight, nullRender_eq]
  simp only [List.cons_append, List.nil_append, List.append_assoc]
  exact ⟨_, rfl⟩

theorem getLast_not_mem_of_rstrip {chars : List Char} {s : Str} {c : Char}
    (h : rstripOn chars s = s) (hc : s.getLast? = some c) :
    chars.contains c = false := by
  rw [← List.head?_reverse] at hc
  cases hr : s.reverse with
  | nil =>
    rw [hr] at hc
    cases hc
  | cons b u =>
    rw [hr] at hc
    have hbc : b = c := by simpa using hc
    have h2 : lstripOn chars s.reverse = s.reverse := by
      have h3 := congrArg List.reverse h
      rw [rstripOn, List.reverse_reverse] at h3
      exact h3
    rw [hr] at h2
    exact hbc ▸ head_not_mem_of_lstrip h2

theorem strip_getLast_not_nl {s : Str} {c : Char} (h : pyStrip s = s)
    (hc : s.getLast? = some c) : (['\n'] : List Char).contains c = false := by
  have hr : rstripOn pyWhitespace s = s := rstripOn_eq_self_of_strip h
  have hws := getLast_not_mem_of_rstrip hr hc
  have hne : c ≠ '\n' := by
    intro he
    rw [he] at hws
    exact absurd hws (by decide)
  simp [List.contains, hne]

theorem coreOf_getLast_not_nl (o : Observation)
    (hcode : o.observatory_code.length = 3)
    (hcs : pyStrip o.observatory_code = o.observatory_code) :
    ∀ c, (coreOf o).getLast? = some c → (['\n'] : List Char).contains c = false := by
  intro c hc
  have hpl : padLeft ' ' 3 o.observatory_code = o.observatory_code :=
    padLeft_eq_self (le_of_eq hcode.symm)
  rw [coreOf, hpl, List.getLast?_append] at hc
  have hcode_ne : o.observatory_code ≠ [] := by
    intro he
    rw [he] at hcode
    simp at hcode
  cases hl : o.observatory_code.getLast? with
  | none => exact absurd (List.getLast?_eq_none_iff.1 hl) hcode_ne
  | some b =>
    rw [hl] at hc
    have hbc : b = c := by simpa [Option.or] using hc
    exact hbc ▸ strip_getLast_not_nl hcs hl

theorem coreOf_head_props (o : Observation)
    (hch : o.null_observation.null_observation_character = '!') :
    ∃ (nc : Char) (t : Str), coreOf o = nc :: t ∧ nc ≠ '\n' ∧ nc ≠ '#' := by
  obtain ⟨t, ht⟩ := coreOf_cons o
  refine ⟨_, t, ht, ?_, ?_⟩ <;> rw [hch] <;> split <;> decide

end MPC

namespace MPC

unseal Rat.add Rat.sub Rat.mul Rat.inv

theorem fromString_assembled (o : Observation) (cW : OSSOSComment) (cs s : Str)
    (hstripid : stripOn ['\n'] s = s)
    (hhead : s.head? ≠ some '#')
    (htake : s.take 80 = coreOf o)
    (hdrop : s.drop 81 = cs)
    (hclen : (coreOf o).length = 80)
    (hunpack : unpackObs (coreOf o) = some
      ⟨NullObservation.render o.null_observation,
       List.replicate 4 ' ' ++ (o.provisional_name ++
         List.replicate (7 - o.provisional_name.length) ' '),
       Discovery.render o.discovery,
       padRight ' ' 1 o.note1.code,
       padRight ' ' 1 o.note2.code,
       padRight ' ' 17 (timeMPCRender o.date o.date_precision),
       padRight ' ' 12 (renderSexagesimal o.coordRa o.ra_precision false),
       padRight ' ' 12 (renderSexagesimal o.coordDec o.dec_precision true),
       (magStrOf o).take 5,
       ((magStrOf o).drop 5).take 1,
       o.observatory_code⟩)
    (hinit : Observation.init
      ⟨NullObservation.render o.null_observation,
       List.replicate 4 ' ' ++ (o.provisional_name ++
         List.replicate (7 - o.provisional_name.length) ' '),
       Discovery.render o.discovery,
       padRight ' ' 1 o.note1.code,
       padRight ' ' 1 o.note2.code,
       padRight ' ' 17 (timeMPCRender o.date o.date_precision),
       padRight ' ' 12 (renderSexagesimal o.coordRa o.ra_precision false),
       padRight ' ' 12 (renderSexagesimal o.coordDec o.dec_precision true),
       (magStrOf o).take 5,
       ((magStrOf o).drop 5).take 1,
       o.observatory_code⟩ = .ok { o with comment := .ossos cW })
    (hcparse : MPCComment.from_string cs = .ok o.comment)
    (hshape : (∃ s0, o.comment = .str s0) ∨
      (∃ c, o.comment = .ossos c ∧ c.source_name ≠ Option.none)) :
    Observation.from_string s = .ok (.obs o) := by
  simp only [Observation.from_string, hstripid]
  rw [if_neg hhead, hdrop, htake, if_neg (not_not_intro hclen)]
  simp only [hunpack]
  rw [hinit, except_bind_ok, hcparse, except_bind_ok]
  rcases hshape with ⟨s0, hoc⟩ | ⟨c, hoc, hsn⟩
  · simp only [hoc]
    exact congrArg (fun cv => (pure (FromStringResult.obs { o with comment := cv })
      : Except PyErr FromStringResult)) hoc.symm
  · simp only [hoc]
    rw [if_neg hsn]
    exact congrArg (fun cv => (pure (FromStringResult.obs { o with comment := cv })
      : Except PyErr FromStringResult)) hoc.symm

end MPC

namespace MPC

unseal Rat.add Rat.sub Rat.mul Rat.inv

theorem getLast?_append_of_ne_nil {l1 l2 : List Char} (h : l2 ≠ []) :
    (l1 ++ l2).getLast? = l2.getLast? := by
  rw [List.getLast?_append]
  cases hl : l2.getLast? with
  | none => exact absurd (List.getLast?_eq_none_iff.1 hl) h
  | some c => rfl

theorem contains_nl_false_of_ne {c : Char} (h : c ≠ '\n') :
    (['\n'] : List Char).contains c = false := by
  simp [List.contains, h]

theorem roundtrip_build (o : Observation) (cs : Str)
    (hch : o.null_observation.null_observation_character = '!')
    (hstrip : pyStrip o.provisional_name = o.provisional_name)
    (h7 : o.provisional_name.length ≤ 7)
    (hdisc : Discovery.mk? (.str (Discovery.render o.discovery)) = .ok o.discovery)
    (hn1len : o.note1.code.length ≤ 1) (hn2len : o.note2.code.length ≤ 1)
    (hnote1 : MPCNote.mk? (MPCNote.render o.note1) .note1 = .ok o.note1)
    (hnote2 : MPCNote.mk? (MPCNote.render o.note2) .note2 = .ok o.note2)
    (hdlen : (timeMPCRender o.date o.date_precision).length ≤ 17)
    (hralen : (renderSexagesimal o.coordRa o.ra_precision false).length ≤ 12)
    (hdeclen : (renderSexagesimal o.coordDec o.dec_precision true).length ≤ 12)
    (hdate : Observation.setDate (padRight ' ' 17 (timeMPCRender o.date o.date_precision))
      = .ok (o.date, o.date_precision))
    (hcoord : Observation.setCoordinate
        (padRight ' ' 12 (renderSexagesimal o.coordRa o.ra_precision false))
        (padRight ' ' 12 (renderSexagesimal o.coordDec o.dec_precision true))
      = .ok (o.coordRa, o.coordDec, o.ra_precision, o.dec_precision))
    (hmb : canonicalMagBand o = true)
    (hcodelen : o.observatory_code.length = 3)
    (hcodestrip : pyStrip o.observatory_code = o.observatory_code)
    (hcrender : CommentVal.render o.comment = .ok cs)
    (hcparse : MPCComment.from_string cs = .ok o.comment)
    (hnl : cs.getLast? ≠ some '\n')
    (hshape : (∃ s0, o.comment = .str s0) ∨
      (∃ c, o.comment = .ossos c ∧ c.source_name ≠ Option.none)) :
    ∃ s : Str, Observation.to_string o = .ok s ∧
      Observation.from_string s = .ok (.obs o) := by
  obtain ⟨cW, hinit⟩ :=
    init_canonical o hch hstrip hdisc hnote1 hnote2 hdate hcoord hmb hcodelen
  have hrender := render_canonical o hmb
  have hclen := coreOf_length o h7 hn1len hn2len hdlen hralen hdeclen hmb hcodelen
  have hunpack := unpackObs_coreOf o h7 hn1len hn2len hdlen hralen hdeclen hmb hcodelen
  obtain ⟨nc, t, hcons, hnc1, hnc2⟩ := coreOf_head_props o hch
  have hlastcore := coreOf_getLast_not_nl o hcodelen hcodestrip
  by_cases hcs0 : cs.length = 0
  · have hcsnil : cs = [] := List.length_eq_zero.1 hcs0
    refine ⟨coreOf o, ?_, ?_⟩
    · rw [Observation.to_string, hrender, except_bind_ok, hcrender, except_bind_ok,
          if_neg (not_not_intro hcs0)]
      rfl
    · refine fromString_assembled o cW cs (coreOf o) ?_ ?_ ?_ ?_ hclen hunpack hinit
        hcparse hshape
      · refine stripOn_eq_self ?_ hlastcore
        intro c hc
        rw [hcons, List.head?_cons] at hc
        have hcc : nc = c := by simpa using hc
        exact contains_nl_false_of_ne (hcc ▸ hnc1)
      · rw [hcons, List.head?_cons]
        intro hcontra
        have : nc = '#' := by simpa using hcontra
        exact hnc2 this
      · exact List.take_of_length_le (le_of_eq hclen)
      · rw [hcsnil]
        exact List.drop_eq_nil_of_le (by omega)
  · refine ⟨coreOf o ++ [' '] ++ cs, ?_, ?_⟩
    · rw [Observation.to_string, hrender, except_bind_ok, hcrender, except_bind_ok,
          if_pos hcs0]
      rfl
    · have hcsne : cs ≠ [] := by
        intro he
        rw [he] at hcs0
        exact hcs0 rfl
      refine fromString_assembled o cW cs (coreOf o ++ [' '] ++ cs) ?_ ?_ ?_ ?_ hclen
        hunpack hinit hcparse hshape
      · refine stripOn_eq_self ?_ ?_
        · intro c hc
          rw [hcons] at hc
          simp only [List.cons_append, List.head?_cons] at hc
          have hcc : nc = c := by simpa using hc
          exact contains_nl_false_of_ne (hcc ▸ hnc1)
        · intro c hc
          rw [getLast?_append_of_ne_nil hcsne] at hc
          refine contains_nl_false_of_ne ?_
          intro he
          rw [he] at hc
          exact hnl hc
      · rw [hcons]
        simp only [List.cons_append, List.head?_cons]
        intro hcontra
        have : nc = '#' := by simpa using hcontra
        exact hnc2 this
      · rw [List.append_assoc]
        exact take_app _ hclen
      · rw [List.append_assoc, show (81 : ℕ) = 80 + 1 from rfl, ← List.drop_drop,
            drop_app _ hclen]
        rfl

end MPC

namespace MPC

unseal Rat.add Rat.sub Rat.mul Rat.inv

/-- C2 amended: the round trip `parse(render(record)) == record` holds
for every canonical observation record — one whose field values are
exactly representable at their captured precisions (as every value
captured from an input string is), with at most one decimal of
magnitude (which is all the magnitude parser ever captures), a name of
at most 7 characters, a 3-character observatory code, and a
survey-standard or opaque trailing comment that itself re-parses to the
same value.  It fails in general: a magnitude carrying two decimals
(e.g. `20.63`) is re-rendered at the captured precision
`min(1, decimals) = 1` as `20.6`, so the re-parsed record differs. -/
theorem C2_canonical_roundtrip (o : Observation) (h : CanonicalObs o = true) :
    ∃ s : Str, Observation.to_string o = .ok s ∧
      Observation.from_string s = .ok (.obs o) := by
  simp only [CanonicalObs, Bool.and_eq_true, decide_eq_true_eq] at h
  obtain ⟨⟨⟨⟨⟨⟨⟨⟨⟨⟨⟨⟨⟨⟨⟨⟨hch, hstrip⟩, h7⟩, hdisc⟩, hn1len⟩, hn2len⟩, hnote1⟩, hnote2⟩,
      hdlen⟩, hralen⟩, hdeclen⟩, hdate⟩, hcoord⟩, hmb⟩, hcodelen⟩, hcodestrip⟩, hcomm⟩ := h
  cases hoc : o.comment with
  | str s0 =>
    simp only [canonicalComment, hoc, CommentVal.render] at hcomm
    rw [Bool.or_eq_true] at hcomm
    rcases hcomm with h0 | hrest
    · rw [decide_eq_true_eq] at h0
      subst h0
      refine roundtrip_build o [] hch hstrip h7 hdisc hn1len hn2len hnote1 hnote2
        hdlen hralen hdeclen hdate hcoord hmb hcodelen hcodestrip ?_ ?_ ?_ ?_
      · rw [hoc]
        rfl
      · rw [hoc]
        decide
      · decide
      · exact Or.inl ⟨[], hoc⟩
    · simp only [Bool.and_eq_true, decide_eq_true_eq] at hrest
      obtain ⟨⟨hne, hnl⟩, hparse⟩ := hrest
      refine roundtrip_build o s0 hch hstrip h7 hdisc hn1len hn2len hnote1 hnote2
        hdlen hralen hdeclen hdate hcoord hmb hcodelen hcodestrip ?_ ?_ hnl
        (Or.inl ⟨s0, hoc⟩)
      · rw [hoc]
        rfl
      · rw [hoc]
        exact hparse
  | ossos c =>
    simp only [canonicalComment, hoc, CommentVal.render] at hcomm
    rcases hrc : OSSOSComment.render c with e | cs
    · rw [hrc] at hcomm
      simp at hcomm
    · rw [hrc] at hcomm
      simp only [Bool.and_eq_true, decide_eq_true_eq] at hcomm
      obtain ⟨⟨⟨hne, hnl⟩, hsn⟩, hparse⟩ := hcomm
      refine roundtrip_build o cs hch hstrip h7 hdisc hn1len hn2len hnote1 hnote2
        hdlen hralen hdeclen hdate hcoord hmb hcodelen hcodestrip ?_ ?_ hnl
        (Or.inr ⟨c, hoc, Option.isSome_iff_ne_none.1 hsn⟩)
      · rw [hoc]
        exact hrc
      · rw [hoc]
        exact hparse
  | tnodb tc =>
    simp only [canonicalComment, hoc, CommentVal.render] at hcomm
    rcases hrc : OSSOSComment.render tc.base with e | cs <;> rw [hrc] at hcomm <;>
      simp at hcomm

/-- Witness for C2 amended: the re-aligned scenario record with its
magnitude at the captured one-decimal precision (`20.6`) is canonical
and round-trips. -/
theorem C2_canonical_roundtrip_witness :
    ∃ s : Str,
      Observation.to_string { scenarioRecord with mag := some (103 / 5) } = .ok s ∧
      Observation.from_string s
        = .ok (.obs { scenarioRecord with mag := some (103 / 5) }) :=
  C2_canonical_roundtrip { scenarioRecord with mag := some (103 / 5) } (by decide)

end MPC
